import Mathlib

/-! OpenZWave control panel: the node, value and group registry of `ozwcp.cpp`.

A shallow embedding of the registry kept by `ozwcp.cpp` (the node table, the
per-node value and group records, the notification dispatcher, the group
reconciler `MyNode::updateGroup`, the value locator `MyNode::lookup` and the
poll-list updater `MyNode::updatePoll`), followed by theorems about it.

Conventions of the embedding.

* C strings and `std::string` values are lists of characters (the characters
  before the terminating NUL); a `char *` that may be `NULL` is an `Option`.
* `uint8` values are natural numbers; a conversion from a wider type reduces
  modulo 256.  The data model is ILP32 (`int`, `long`, `size_t` 32 bits wide),
  the model under which the `uint32` positions of `MyNode::lookup` can hold
  `string::npos`.
* The driver (`Manager`) is an external collaborator: its queries are an
  oracle passed to the operations, the commands sent to it are returned as a
  trace.
* An operation that indexes the node table outside its `MAX_NODES` slots, or
  that calls a member function through a `NULL` slot, faults: it returns
  `none`.
* Records on the heap are values.  A store outside an allocated buffer and
  a read through an erased list iterator fault too: the first in the scratch
  buffer of `MyNode::updateGroup`, which `new uint8(max)` allocates as one
  byte, the second in `MyNode::removeValue`, which runs `delete *it` after
  `values.erase(it)`.
-/

namespace Ozwcp

/-! ## C library helpers -/

/-- C `isspace` in the "C" locale. -/
def isspace (c : Char) : Bool :=
  c == ' ' || c == '\t' || c == '\n' || c == '\x0b' || c == '\x0c' || c == '\r'

/-- C `isdigit`. -/
def isdigit (c : Char) : Bool :=
  decide (48 ≤ c.toNat) && decide (c.toNat ≤ 57)

/-- Value of the longest run of decimal digits at the head of a text,
accumulated left to right from `acc`. -/
def digitsValue (acc : Nat) : List Char → Nat
  | [] => acc
  | c :: cs => if isdigit c then digitsValue (acc * 10 + (c.toNat - 48)) cs else acc

/-- The constant `LONG_MAX` (ILP32). -/
def LONG_MAX : Int := 2 ^ 31 - 1

/-- The constant `LONG_MIN` (ILP32). -/
def LONG_MIN : Int := -(2 ^ 31)

/-- C `strtol(s, NULL, 10)`: optional white space, optional sign, decimal
digits; no digits give 0; the result saturates at `LONG_MIN`, `LONG_MAX`. -/
def strtol (s : List Char) : Int :=
  match s.dropWhile isspace with
  | [] => 0
  | c :: r =>
    if c = '-' then max LONG_MIN (-(digitsValue 0 r : Int))
    else if c = '+' then min LONG_MAX (digitsValue 0 r : Int)
    else min LONG_MAX (digitsValue 0 (c :: r) : Int)

/-- Conversion of a `long` to `uint8`. -/
def toUint8 (x : Int) : Nat := (x % 256).toNat

/-- C `strsep(&p, ",")` on a non-`NULL` `p`: the token up to the first comma,
and the new `p` (the text after that comma, or `NULL` when there is none). -/
def strsep (p : List Char) : List Char × Option (List Char) :=
  (p.takeWhile (fun c => c != ','),
   match p.dropWhile (fun c => c != ',') with
   | [] => none
   | _ :: r => some r)

/-! ## Records -/

/-- One association group of a node (`MyGroup`): `groupid` and `max` are
bytes, `grouplist` is the mirrored member list (`vector<uint8>`). -/
structure MyGroup where
  groupid : Nat
  max : Nat
  label : String
  grouplist : List Nat
deriving DecidableEq, Repr

/-- The identity of a value (`OpenZWave::ValueID`), compared field by field. -/
structure ValueID where
  homeId : Nat
  nodeId : Nat
  genre : Nat
  commandClassId : Nat
  inst : Nat
  index : Nat
  type : Nat
deriving DecidableEq, Repr

/-- One value record of a node (`MyValue`). -/
structure MyValue where
  id : ValueID
deriving DecidableEq, Repr

/-- One node record (`MyNode`). -/
structure MyNode where
  type : Int
  mtime : Nat
  values : List MyValue
  groups : List MyGroup
deriving DecidableEq, Repr

/-- A command sent to the driver. -/
inductive Cmd where
  | AddAssociation (homeId node grp target : Nat)
  | RemoveAssociation (homeId node grp target : Nat)
deriving DecidableEq, Repr

/-! ## Group reconciliation -/

/-- The parsing loop of `MyNode::updateGroup`:
`while (p != NULL && *p && n < max) v[n++] = strtol(strsep(&p, ","), NULL, 10)`,
storing into a buffer `v` of `size` bytes.  The second argument is `max - n`,
the room the loop test leaves, the third is `n`; the result is `v[n ..]`.
The store `v[n]` faults (`none`) when `n` is not an index of the buffer. -/
def parseMembers (size : Nat) : Nat → Nat → Option (List Char) → Option (List Nat)
  | 0, _, _ => some []
  | _ + 1, _, none => some []
  | _ + 1, _, some [] => some []
  | k + 1, n, some (c :: cs) =>
    if n < size then
      (parseMembers size k (n + 1) (strsep (c :: cs)).2).map
        (fun rest => toUint8 (strtol (strsep (c :: cs)).1) :: rest)
    else none

/-- The group search at the head of `MyNode::updateGroup` and in
`MyNode::getGroup`: the first record whose `groupid` is `grp`. -/
def MyNode.getGroup (self : MyNode) (grp : Nat) : Option MyGroup :=
  self.groups.find? (fun g => g.groupid == grp)

/-- The function `MyNode::updateGroup`: the commands sent to the driver, in order, or
`none` when the call faults.  Without a record of group `grp` the call
returns at once.  The scratch buffer `v = new uint8(max)` is one byte (a
single `uint8` initialised to `max`), so the parsing loop runs on a buffer of
size 1 and faults at its second store, before any command is sent.  First
pass: every parsed member not found in the mirrored list is added.  Second
pass: every mirrored member not found among the parsed ones is removed.
The release `delete [] v` that ends the call has no counterpart here. -/
def MyNode.updateGroup (homeId : Nat) (self : MyNode) (node grp : Nat)
    (glist : Option (List Char)) : Option (List Cmd) :=
  match self.getGroup grp with
  | none => some []
  | some g =>
    match parseMembers 1 g.max 0 glist with
    | none => none
    | some v =>
      some ((v.filter (fun x => !g.grouplist.contains x)).map
          (Cmd.AddAssociation homeId node grp)
        ++ (g.grouplist.filter (fun y => !v.contains y)).map
          (Cmd.RemoveAssociation homeId node grp))

/-! ## The driver oracle, the registry state -/

/-- The queries the registry makes to the driver (`Manager::Get()`), as an
oracle; home ids are 32-bit, node ids, group indices and counts are bytes. -/
structure Manager where
  GetNumGroups : Nat → Nat → Nat
  GetMaxAssociations : Nat → Nat → Nat → Nat
  GetGroupLabel : Nat → Nat → Nat → String
  GetAssociations : Nat → Nat → Nat → List Nat
  IsStaticUpdateController : Nat → Bool
  IsPrimaryController : Nat → Bool

/-- The globals of `ozwcp.cpp`: the node table `nodes` (one entry per slot,
`none` for `NULL`), `MyNode::nodecount`, `done`, `needsave`, `homeId`,
`nodeId`, `cmode`, and the web server flag set by `setNodesChanged`. -/
structure State where
  nodes : List (Option MyNode)
  nodecount : Int
  done : Bool
  needsave : Bool
  homeId : Nat
  nodeId : Nat
  cmode : String
  nodesChanged : Bool
deriving DecidableEq, Repr

/-- Arithmetic on `int32` wraps (two's complement). -/
def wrapInt32 (x : Int) : Int := (x + 2 ^ 31) % 2 ^ 32 - 2 ^ 31

/-- Conversion of an unsigned count to `int8`. -/
def toInt8 (x : Nat) : Int := if x % 256 < 128 then (x % 256 : Nat) else (x % 256 : Nat) - 256

/-- The method `MyNode::setTime`. -/
def MyNode.setTime (self : MyNode) (t : Nat) : MyNode := { self with mtime := t }

/-- The method `MyNode::newGroup`: one group record per driver group `1 .. n`, pushed at
the back of `groups`. -/
def MyNode.newGroup (mgr : Manager) (homeId : Nat) (self : MyNode) (node : Nat) : MyNode :=
  { self with
    groups := self.groups ++ (List.range (mgr.GetNumGroups homeId node)).map (fun k =>
      { groupid := k + 1
        max := mgr.GetMaxAssociations homeId node (k + 1)
        label := mgr.GetGroupLabel homeId node (k + 1)
        grouplist := [] }) }

/-- The constructor `MyNode::MyNode(ind)`, run by `new MyNode(ind)`: an address outside
`[1, MAX_NODES]` is ignored; otherwise the groups are seeded, the time is
stamped, the record is stored at `nodes[ind]` (over whatever the slot held)
and `nodecount` is incremented.  The store faults when `ind` is not an index
of the table. -/
def MyNode.create (MAX_NODES : Nat) (mgr : Manager) (now : Nat) (st : State) (ind : Int) :
    Option State :=
  if ind < 1 ∨ ind > MAX_NODES then some st
  else
    let self := (MyNode.newGroup mgr st.homeId ⟨0, 0, [], []⟩ (toUint8 ind)).setTime now
    if ind.toNat < st.nodes.length then
      some { st with
        nodes := st.nodes.set ind.toNat (some self)
        nodecount := wrapInt32 (st.nodecount + 1) }
    else none

/-- The function `MyNode::remove(ind)`: an address outside `[1, MAX_NODES]` is ignored;
otherwise a non-`NULL` slot is destroyed, cleared and `nodecount` is
decremented.  The read of `nodes[ind]` faults when `ind` is not an index of
the table. -/
def MyNode.remove (MAX_NODES : Nat) (st : State) (ind : Int) : Option State :=
  if ind < 1 ∨ ind > MAX_NODES then some st
  else
    match st.nodes[ind.toNat]? with
    | none => none
    | some none => some st
    | some (some _) =>
      some { st with
        nodes := st.nodes.set ind.toNat none
        nodecount := wrapInt32 (st.nodecount - 1) }

/-- The method `MyNode::addValue`. -/
def MyNode.addValue (self : MyNode) (now : Nat) (id : ValueID) : MyNode :=
  { self with mtime := now, values := self.values ++ [⟨id⟩] }

/-- The method `MyNode::removeValue`: the loop stops at the first record whose identity
is `id` and runs `values.erase(it); delete *it;` there; `*it` reads through
the iterator the erase has just invalidated, so the call faults (`none`).
With no such record the loop ends and the node is left as it is. -/
def MyNode.removeValue (self : MyNode) (id : ValueID) : Option MyNode :=
  match self.values.find? (fun v => v.id == id) with
  | none => some self
  | some _ => none

/-- The method `MyNode::saveValue`. -/
def MyNode.saveValue (self : MyNode) (now : Nat) (_id : ValueID) : MyNode :=
  self.setTime now

/-- The loop of `MyNode::addGroup`: the members are pushed at the back of the
first record whose `groupid` is `g`. -/
def pushMembers (g : Nat) (ms : List Nat) : List MyGroup → List MyGroup
  | [] => []
  | p :: ps =>
    if p.groupid == g then { p with grouplist := p.grouplist ++ ms } :: ps
    else p :: pushMembers g ms ps

/-- The method `MyNode::addGroup(node, g, n, v)`. -/
def MyNode.addGroup (mgr : Manager) (homeId : Nat) (self : MyNode) (node g n : Nat)
    (v : List Nat) : MyNode :=
  let self1 := if self.groups.length = 0 then self.newGroup mgr homeId node else self
  { self1 with groups := pushMembers g (v.take n) self1.groups }

/-! ## The value locator -/

/-- The fixed name tables of the panel (`cclassNum`, `valueGenreNum`,
`valueTypeNum` and the printing functions `cclassStr`, `valueGenreStr`,
`valueTypeStr`).  Their definitions are not part of `ozwcp.cpp`; they are
parameters of the embedding. -/
structure Tables where
  cclassNum : List Char → Nat
  valueGenreNum : List Char → Nat
  valueTypeNum : List Char → Nat
  cclassStr : Nat → List Char
  valueGenreStr : Nat → List Char
  valueTypeStr : Nat → List Char

/-- The call `data.find("-", pos)`: the position of the first hyphen at or after
`pos`, `none` for `string::npos`. -/
def find (data : List Char) (pos : Nat) : Option Nat :=
  match (data.drop pos).dropWhile (fun c => c != '-') with
  | [] => none
  | _ :: _ => some (pos + ((data.drop pos).takeWhile (fun c => c != '-')).length)

/-- The call `data.substr(pos, len)`, for `pos` within the string (as it always is in
`MyNode::lookup`). -/
def substr (data : List Char) (pos len : Nat) : List Char := (data.drop pos).take len

/-- The function `MyNode::lookup`.  The outer `none` is a fault (the read of `nodes[node]`
outside the table), `some none` is the result `NULL`. -/
def MyNode.lookup (T : Tables) (st : State) (data : List Char) : Option (Option MyValue) :=
  let node := toUint8 (strtol data)
  if node = 0 then some none
  else
    match find data 0 with
    | none => some none
    | some p1 =>
      match find data (p1 + 1) with
      | none => some none
      | some p2 =>
        let cls := T.cclassNum (substr data (p1 + 1) (p2 - (p1 + 1)))
        if cls = 0xFF then some none
        else
          match find data (p2 + 1) with
          | none => some none
          | some p3 =>
            let vg := T.valueGenreNum (substr data (p2 + 1) (p3 - (p2 + 1)))
            match find data (p3 + 1) with
            | none => some none
            | some p4 =>
              let typ := T.valueTypeNum (substr data (p3 + 1) (p4 - (p3 + 1)))
              match find data (p4 + 1) with
              | none => some none
              | some p5 =>
                let inst := toUint8 (strtol (substr data (p4 + 1) (p5 - (p4 + 1))))
                let ind := toUint8 (strtol (data.drop (p5 + 1)))
                let id : ValueID := ⟨st.homeId, node, vg, cls, inst, ind, typ⟩
                match st.nodes[node]? with
                | none => none
                | some none => some none
                | some (some n) => some (n.values.find? (fun v => v.id == id))

/-! ## The poll-list updater -/

/-- The splitting loops of `MyNode::updatePoll`:
`while (p != NULL && *p) push_back(strsep(&p, ","))`, run for at most the
given number of rounds. -/
def splitLoop : Nat → Option (List Char) → List (List Char)
  | 0, _ => []
  | _ + 1, none => []
  | _ + 1, some [] => []
  | k + 1, some (c :: cs) => (strsep (c :: cs)).1 :: splitLoop k (strsep (c :: cs)).2

/-- The items of a comma-separated text, as the splitting loop collects them;
every round consumes a character, so as many rounds as characters suffice. -/
def splitItems (p : Option (List Char)) : List (List Char) :=
  match p with
  | none => []
  | some s => splitLoop s.length (some s)

/-- A polling command sent to the driver. -/
inductive PollCmd where
  | EnablePoll (id : ValueID)
  | DisablePoll (id : ValueID)
deriving DecidableEq, Repr

/-- The polling side of the driver, over a driver state `D`: the query
`isPolled` and the commands `EnablePoll`, `DisablePoll` with their results. -/
structure PollDriver (D : Type) where
  isPolled : D → ValueID → Bool
  EnablePoll : D → ValueID → Bool × D
  DisablePoll : D → ValueID → Bool × D

/-- How a run of a loop ends: it returns, it faults, or the rounds given to it
are used up before it returns. -/
inductive Outcome (α : Type) where
  | returns (a : α)
  | faults
  | outOfFuel
deriving DecidableEq, Repr

/-- The main loop of `MyNode::updatePoll` over the iterators `it` and `pit`,
one round of the `while` per unit of fuel.  A key that does not resolve
takes the `continue`, which leaves both iterators where they are. -/
def updatePollLoop {D : Type} (T : Tables) (st : State) (pd : PollDriver D) :
    Nat → List (List Char) → List Bool → D → List PollCmd → Outcome (List PollCmd × D)
  | 0, _, _, _, _ => Outcome.outOfFuel
  | fuel + 1, it :: ids, pit :: polls, d, out =>
    match MyNode.lookup T st it with
    | none => Outcome.faults
    | some none => updatePollLoop T st pd fuel (it :: ids) (pit :: polls) d out
    | some (some v) =>
      if pit then
        if !pd.isPolled d v.id then
          updatePollLoop T st pd fuel ids polls (pd.EnablePoll d v.id).2
            (out ++ [PollCmd.EnablePoll v.id])
        else updatePollLoop T st pd fuel ids polls d out
      else
        if pd.isPolled d v.id then
          updatePollLoop T st pd fuel ids polls (pd.DisablePoll d v.id).2
            (out ++ [PollCmd.DisablePoll v.id])
        else updatePollLoop T st pd fuel ids polls d out
  | _ + 1, _, _, d, out => Outcome.returns (out, d)

/-- The function `MyNode::updatePoll(ilist, plist)`: the commands sent to the driver and
the driver state it leaves. -/
def MyNode.updatePoll {D : Type} (T : Tables) (st : State) (pd : PollDriver D) (fuel : Nat)
    (ilist plist : Option (List Char)) (d : D) : Outcome (List PollCmd × D) :=
  let ids := splitItems ilist
  let polls := (splitItems plist).map (fun np => np.head? == some '1')
  if ids.length ≠ polls.length then Outcome.returns ([], d)
  else updatePollLoop T st pd fuel ids polls d []

/-! ## The notification dispatcher -/

/-- The notification types `OnNotification` tells apart; every other type
code takes the `default` branch. -/
inductive NotificationType where
  | ValueAdded | ValueRemoved | ValueChanged | Group | NodeNew | NodeAdded
  | NodeRemoved | NodeEvent | NodeProtocolInfo | NodeNaming | PollingDisabled
  | PollingEnabled | DriverReady | DriverReset | MsgComplete
  | NodeQueriesComplete | AwakeNodesQueried | AllNodesQueried
  | Other (code : Nat)
deriving DecidableEq, Repr

/-- What `OnNotification` reads from a notification: `GetType`, `GetHomeId`,
`GetNodeId` (a byte), `GetValueID`, `GetGroupIdx` (a byte). -/
structure Notification where
  type : NotificationType
  homeId : Nat
  nodeId : Nat
  valueId : ValueID
  groupIdx : Nat
deriving DecidableEq, Repr

/-- The controller role derived in the driver-ready and driver-reset branches. -/
def controllerMode (mgr : Manager) (homeId : Nat) : String :=
  if mgr.IsStaticUpdateController homeId then "SUC"
  else if mgr.IsPrimaryController homeId then "Primary"
  else "Slave"

/-- A member call `nodes[i]->f(...)` that updates the record: it faults when
`i` is not an index of the table, when the slot is `NULL`, or when `f`
itself faults. -/
def onNode (st : State) (i : Nat) (f : MyNode → Option MyNode) : Option State :=
  match st.nodes[i]? with
  | some (some nd) => (f nd).map (fun nd' => { st with nodes := st.nodes.set i (some nd') })
  | _ => none

/-- The loop `for (int i = 1; i <= MAX_NODES; i++) MyNode::remove(i)`. -/
def removeAll (MAX_NODES : Nat) (st : State) : Option State :=
  (List.range' 1 MAX_NODES).foldlM (fun s (i : Nat) => MyNode.remove MAX_NODES s (i : Int)) st

/-- The callback `OnNotification`, at driver answers `mgr` and clock `now`. -/
def OnNotification (MAX_NODES : Nat) (mgr : Manager) (now : Nat) (st0 : State)
    (n : Notification) : Option State :=
  let st := { st0 with nodesChanged := true }
  match n.type with
  | .ValueAdded => onNode st n.nodeId (fun nd => some (nd.addValue now n.valueId))
  | .ValueRemoved => onNode st n.nodeId (fun nd => nd.removeValue n.valueId)
  | .ValueChanged => onNode st n.nodeId (fun nd => some (nd.saveValue now n.valueId))
  | .Group =>
    let v := mgr.GetAssociations st.homeId n.nodeId n.groupIdx
    if toInt8 v.length > 0 then
      onNode st n.nodeId (fun nd =>
        some (nd.addGroup mgr st.homeId n.nodeId n.groupIdx (toInt8 v.length).toNat v))
    else some st
  | .NodeNew => some { st with needsave := true }
  | .NodeAdded => MyNode.create MAX_NODES mgr now st (n.nodeId : Int)
  | .NodeRemoved =>
    (MyNode.remove MAX_NODES st (n.nodeId : Int)).map (fun s => { s with needsave := true })
  | .NodeEvent => onNode st n.nodeId (fun nd => some (nd.saveValue now n.valueId))
  | .DriverReady =>
    some { st with
      homeId := n.homeId
      nodeId := n.nodeId
      cmode := controllerMode mgr n.homeId }
  | .DriverReset =>
    removeAll MAX_NODES { st with
      done := false
      needsave := false
      homeId := n.homeId
      cmode := controllerMode mgr n.homeId }
  | _ => some st

/-! ## Definitions used to state the properties -/

/-- The desired members a text names: its comma-separated items, each read
as a decimal number and stored as a byte. -/
def desiredMembers (glist : Option (List Char)) : List Nat :=
  (splitItems glist).map (fun t => toUint8 (strtol t))

/-- Driver-side membership of the group `(homeId, node, grp)` as a set:
add-association inserts the member, remove-association deletes it; commands
for another group leave it alone. -/
def applyAssociation (homeId node grp : Nat) (S : Finset Nat) : Cmd → Finset Nat
  | Cmd.AddAssociation h n g x => if h = homeId ∧ n = node ∧ g = grp then insert x S else S
  | Cmd.RemoveAssociation h n g x => if h = homeId ∧ n = node ∧ g = grp then S.erase x else S

/-- The driver-side member set after a sequence of commands. -/
def driverAfter (homeId node grp : Nat) (S : Finset Nat) (cmds : List Cmd) : Finset Nat :=
  cmds.foldl (applyAssociation homeId node grp) S

/-- The registry at program start: every slot `NULL`, the globals at their
initialisers. -/
def emptyRegistry (MAX_NODES : Nat) : State :=
  { nodes := List.replicate MAX_NODES none
    nodecount := 0
    done := false
    needsave := false
    homeId := 0
    nodeId := 0
    cmode := ""
    nodesChanged := false }

/-- A node whose only group, group 1 of capacity 5, mirrors the members 4
and 5. -/
def nodeWithGroup45 : MyNode :=
  { type := 0, mtime := 0, values := [], groups := [⟨1, 5, "", [4, 5]⟩] }

/-- A driver oracle that reports, for every node, one group of capacity 5
holding the given members, and a primary controller. -/
def driverReporting (members : List Nat) : Manager :=
  { GetNumGroups := fun _ _ => 1
    GetMaxAssociations := fun _ _ _ => 5
    GetGroupLabel := fun _ _ _ => ""
    GetAssociations := fun _ _ _ => members
    IsStaticUpdateController := fun _ => false
    IsPrimaryController := fun _ => true }

/-- A registry of 255 slots whose only node, at address 7, is
`nodeWithGroup45`. -/
def registryWithNode7 : State :=
  { emptyRegistry 255 with
    nodes := (List.replicate 255 none).set 7 (some nodeWithGroup45)
    nodecount := 1 }

/-- The group-changed notification for group `grp` of node `node`. -/
def groupChanged (node grp : Nat) : Notification :=
  { type := NotificationType.Group, homeId := 0, nodeId := node,
    valueId := ⟨0, node, 0, 0, 0, 0, 0⟩, groupIdx := grp }

/-- A run of the dispatcher over a sequence of notifications, each with the
driver answers and the clock at its dispatch; a fault ends the run. -/
def dispatchAll (MAX_NODES : Nat) (st : State)
    (evs : List (Manager × Nat × Notification)) : Option State :=
  evs.foldlM (fun s e => OnNotification MAX_NODES e.1 e.2.1 s e.2.2) st

/-- The node-added notification for address `node`. -/
def nodeAdded (node : Nat) : Notification :=
  { type := NotificationType.NodeAdded, homeId := 0, nodeId := node,
    valueId := ⟨0, node, 0, 0, 0, 0, 0⟩, groupIdx := 0 }

/-- The node-removed notification for address `node`. -/
def nodeRemoved (node : Nat) : Notification :=
  { type := NotificationType.NodeRemoved, homeId := 0, nodeId := node,
    valueId := ⟨0, node, 0, 0, 0, 0, 0⟩, groupIdx := 0 }

/-- The driver-reset notification of home `homeId`. -/
def driverReset (homeId : Nat) : Notification :=
  { type := NotificationType.DriverReset, homeId := homeId, nodeId := 0,
    valueId := ⟨homeId, 0, 0, 0, 0, 0, 0⟩, groupIdx := 0 }

/-- A sample of the name tables, with the names of the key
`2-SWITCH MULTILEVEL-user-byte-1-0` quoted at `MyNode::lookup`: two command
classes, four genres, three types; `cclassNum` answers `0xFF` for any other
name, and the other two functions answer 255. -/
def sampleTables : Tables :=
  { cclassNum := fun s =>
      if s = "SWITCH MULTILEVEL".toList then 0x26 else if s = "BASIC".toList then 0x20 else 0xFF
    valueGenreNum := fun s =>
      if s = "basic".toList then 0 else if s = "user".toList then 1
      else if s = "config".toList then 2 else if s = "system".toList then 3 else 255
    valueTypeNum := fun s =>
      if s = "bool".toList then 0 else if s = "byte".toList then 1
      else if s = "decimal".toList then 2 else 255
    cclassStr := fun c =>
      if c = 0x26 then "SWITCH MULTILEVEL".toList else if c = 0x20 then "BASIC".toList
      else "UNKNOWN".toList
    valueGenreStr := fun g =>
      if g = 0 then "basic".toList else if g = 1 then "user".toList
      else if g = 2 then "config".toList else if g = 3 then "system".toList
      else "unknown".toList
    valueTypeStr := fun t =>
      if t = 0 then "bool".toList else if t = 1 then "byte".toList
      else if t = 2 then "decimal".toList else "unknown".toList }

/-- The identity written `2-SWITCH MULTILEVEL-user-byte-1-0` under
`sampleTables`, in home 0. -/
def sampleValueID : ValueID :=
  { homeId := 0, nodeId := 2, genre := 1, commandClassId := 0x26, inst := 1, index := 0,
    type := 1 }

/-- A registry of 255 slots whose only node, at address 2, holds the single
value `sampleValueID`. -/
def registryWithValue : State :=
  { emptyRegistry 255 with
    nodes := (List.replicate 255 none).set 2
      (some { type := 0, mtime := 0, values := [⟨sampleValueID⟩], groups := [] })
    nodecount := 1 }

/-- A polling driver whose state is the list of polled values: enabling
adds the value, disabling erases it, both succeed. -/
def listPollDriver : PollDriver (List ValueID) :=
  { isPolled := fun d v => d.contains v
    EnablePoll := fun d v => (true, v :: d)
    DisablePoll := fun d v => (true, d.erase v) }

/-- The loop that writes a number in decimal, last digit first, in front of
the digits already written. -/
def decimalLoop : Nat → Nat → List Char → List Char
  | 0, _, acc => acc
  | f + 1, n, acc =>
    if n / 10 = 0 then Char.ofNat (48 + n % 10) :: acc
    else decimalLoop f (n / 10) (Char.ofNat (48 + n % 10) :: acc)

/-- A number written in decimal, as `%d` prints it. -/
def decimal (n : Nat) : List Char := decimalLoop (n + 1) n []

/-- The text key of an identity in the form documented at `MyNode::lookup`,
`node-class-genre-type-instance-index`: the numbers in decimal, the class,
genre and type by their names in the tables. -/
def formatKey (T : Tables) (id : ValueID) : List Char :=
  decimal id.nodeId ++ '-' :: (T.cclassStr id.commandClassId ++ '-' ::
    (T.valueGenreStr id.genre ++ '-' :: (T.valueTypeStr id.type ++ '-' ::
      (decimal id.inst ++ '-' :: decimal id.index))))

/-- An identity like `sampleValueID` but of command class `0xFF`, the class
`sampleTables` prints as `UNKNOWN` and reads back as `0xFF`. -/
def sentinelClassID : ValueID :=
  { homeId := 0, nodeId := 2, genre := 1, commandClassId := 0xFF, inst := 1, index := 0,
    type := 1 }

/-- A registry of 255 slots whose only node, at address 2, holds the single
value `sentinelClassID`. -/
def registryWithSentinelClass : State :=
  { emptyRegistry 255 with
    nodes := (List.replicate 255 none).set 2
      (some { type := 0, mtime := 0, values := [⟨sentinelClassID⟩], groups := [] })
    nodecount := 1 }

/-- An identity like `sampleValueID` whose genre is the number
`valueGenreNum` answers for the name `bogus`, a name of no genre. -/
def bogusGenreID : ValueID :=
  { homeId := 0, nodeId := 2, genre := sampleTables.valueGenreNum "bogus".toList,
    commandClassId := 0x26, inst := 1, index := 0, type := 1 }

/-- A registry of 255 slots whose only node, at address 2, holds the single
value `bogusGenreID`. -/
def registryWithBogusGenre : State :=
  { emptyRegistry 255 with
    nodes := (List.replicate 255 none).set 2
      (some { type := 0, mtime := 0, values := [⟨bogusGenreID⟩], groups := [] })
    nodecount := 1 }

/-- The tables `sampleTables` with one more command class, number `0x60`,
whose name `MULTI-CHANNEL` holds a hyphen. -/
def hyphenTables : Tables :=
  { sampleTables with
    cclassNum := fun s =>
      if s = "MULTI-CHANNEL".toList then 0x60 else sampleTables.cclassNum s
    cclassStr := fun c =>
      if c = 0x60 then "MULTI-CHANNEL".toList else sampleTables.cclassStr c }

/-- The value-added notification for the value `id` of node `node`. -/
def valueAdded (node : Nat) (id : ValueID) : Notification :=
  { type := NotificationType.ValueAdded, homeId := id.homeId, nodeId := node,
    valueId := id, groupIdx := 0 }

/-- The value-changed notification for the value `id` of node `node`. -/
def valueChanged (node : Nat) (id : ValueID) : Notification :=
  { type := NotificationType.ValueChanged, homeId := id.homeId, nodeId := node,
    valueId := id, groupIdx := 0 }

/-- The value-removed notification for the value `id` of node `node`. -/
def valueRemoved (node : Nat) (id : ValueID) : Notification :=
  { type := NotificationType.ValueRemoved, homeId := id.homeId, nodeId := node,
    valueId := id, groupIdx := 0 }

/-- Whether a notification announces as added a value the addressed node
already holds. -/
def reannounces (st : State) (n : Notification) : Bool :=
  match n.type, st.nodes[n.nodeId]? with
  | NotificationType.ValueAdded, some (some nd) => nd.values.contains ⟨n.valueId⟩
  | _, _ => false

/-- Whether, along a run of the dispatcher, no value-added notification
announces a value its node holds at that moment. -/
def freshRun (MAX_NODES : Nat) : State → List (Manager × Nat × Notification) → Bool
  | _, [] => true
  | st, e :: es =>
    !reannounces st e.2.2 &&
      match OnNotification MAX_NODES e.1 e.2.1 st e.2.2 with
      | none => true
      | some st' => freshRun MAX_NODES st' es

/-- No record of the table holds two value records with the same identity. -/
def distinctIn (nodes : List (Option MyNode)) : Prop :=
  ∀ nd, some nd ∈ nodes → (nd.values.map MyValue.id).Nodup

/-- No node of the registry holds two value records with the same
identity. -/
def valuesDistinct (st : State) : Prop := distinctIn st.nodes

/-- The value `2-SWITCH MULTILEVEL-user-byte-1-0` re-addressed to node 5. -/
def valueOfNode5 : ValueID := { sampleValueID with nodeId := 5 }

/-- A run that announces node 5 and then the same value of node 5 twice. -/
def valueTwiceRun : List (Manager × Nat × Notification) :=
  [(driverReporting [], 0, nodeAdded 5), (driverReporting [], 1, valueAdded 5 valueOfNode5),
   (driverReporting [], 2, valueAdded 5 valueOfNode5)]

/-- The value `2-SWITCH MULTILEVEL-user-byte-1-1` of node 5, next to
`valueOfNode5`. -/
def secondValueOfNode5 : ValueID := { valueOfNode5 with index := 1 }

/-- A run that announces node 5 and a value of it, removes a second value,
which the node does not hold, and then announces that second value. -/
def valueApartRun : List (Manager × Nat × Notification) :=
  [(driverReporting [], 0, nodeAdded 5), (driverReporting [], 1, valueAdded 5 valueOfNode5),
   (driverReporting [], 2, valueRemoved 5 secondValueOfNode5),
   (driverReporting [], 3, valueAdded 5 secondValueOfNode5)]

/-- The member a command names. -/
def Cmd.target : Cmd → Nat
  | Cmd.AddAssociation _ _ _ x => x
  | Cmd.RemoveAssociation _ _ _ x => x

/-- What the specification asks at one position of a poll update, for the
resolved value `v` and the request `requested`, on the driver state `d`:
enable polling when requested and not polled, disable it when not requested
and polled, nothing otherwise; the commands sent and the driver state
left. -/
def pollStep {D : Type} (pd : PollDriver D) (d : D) (v : MyValue) (requested : Bool) :
    List PollCmd × D :=
  if requested then
    if pd.isPolled d v.id then ([], d)
    else ([PollCmd.EnablePoll v.id], (pd.EnablePoll d v.id).2)
  else
    if pd.isPolled d v.id then ([PollCmd.DisablePoll v.id], (pd.DisablePoll d v.id).2)
    else ([], d)

/-- The positions of a poll update one after the other, each on the driver
state the one before left. -/
def pollSteps {D : Type} (pd : PollDriver D) : List (MyValue × Bool) → D → List PollCmd × D
  | [], d => ([], d)
  | (v, requested) :: rest, d =>
    ((pollStep pd d v requested).1 ++ (pollSteps pd rest (pollStep pd d v requested).2).1,
     (pollSteps pd rest (pollStep pd d v requested).2).2)

/-- The number of occupied slots of the node table. -/
def occupiedSlots (st : State) : Nat := st.nodes.countP Option.isSome

end Ozwcp

namespace Ozwcp

/-! ## Text splitting -/

theorem strsep_snd_length (s r : List Char) (h : (strsep s).2 = some r) :
    r.length < s.length := by
  unfold strsep at h
  have hle := (@List.dropWhile_suffix _ s (fun c => c != ',')).length_le
  cases hd : List.dropWhile (fun c => c != ',') s with
  | nil => simp [hd] at h
  | cons a t =>
    simp only [hd, Option.some.injEq] at h
    subst h
    rw [hd] at hle
    simp only [List.length_cons] at hle
    omega

/-- Rounds beyond the number of characters do not change what the splitting
loop collects, and fewer rounds collect a head segment of it. -/
theorem splitLoop_take (k : Nat) :
    ∀ (n : Nat) (s : List Char), s.length ≤ n →
      splitLoop k (some s) = (splitLoop n (some s)).take k := by
  induction k with
  | zero => intro n s _; simp [splitLoop]
  | succ k ih =>
    intro n s hs
    cases s with
    | nil => cases n <;> simp [splitLoop]
    | cons c cs =>
      cases n with
      | zero => simp at hs
      | succ m =>
        simp only [splitLoop, List.take_succ_cons, List.cons.injEq, true_and]
        cases hr : (strsep (c :: cs)).2 with
        | none => cases k <;> cases m <;> simp [splitLoop]
        | some r =>
          have hlt := strsep_snd_length (c :: cs) r hr
          simp only [List.length_cons] at hlt hs
          exact ih m r (by omega)

theorem splitLoop_eq_take (k : Nat) (p : Option (List Char)) :
    splitLoop k p = (splitItems p).take k := by
  cases p with
  | none => cases k <;> simp [splitLoop, splitItems]
  | some s => exact splitLoop_take k s.length s (le_refl _)

/-- The parsing loop of `MyNode::updateGroup` in terms of the splitting loop:
the converted items when they fit the buffer from position `n` on, a fault
when one of them is stored outside it. -/
theorem parseMembers_eq_map (size k : Nat) :
    ∀ (n : Nat) (p : Option (List Char)),
      parseMembers size k n p =
        if (splitLoop k p).length = 0 ∨ n + (splitLoop k p).length ≤ size then
          some ((splitLoop k p).map (fun t => toUint8 (strtol t)))
        else none := by
  induction k with
  | zero => intro n p; simp [parseMembers, splitLoop]
  | succ k ih =>
    intro n p
    cases p with
    | none => simp [parseMembers, splitLoop]
    | some s =>
      cases s with
      | nil => simp [parseMembers, splitLoop]
      | cons c cs =>
        simp only [parseMembers, splitLoop, ih, List.length_cons, List.map_cons]
        by_cases hn : n < size
        · by_cases hl : (splitLoop k (strsep (c :: cs)).2).length = 0 ∨
              n + 1 + (splitLoop k (strsep (c :: cs)).2).length ≤ size
          · have hr : (splitLoop k (strsep (c :: cs)).2).length + 1 = 0 ∨
                n + ((splitLoop k (strsep (c :: cs)).2).length + 1) ≤ size := by omega
            simp only [if_pos hn, if_pos hl, if_pos hr, Option.map_some']
          · have hr : ¬ ((splitLoop k (strsep (c :: cs)).2).length + 1 = 0 ∨
                n + ((splitLoop k (strsep (c :: cs)).2).length + 1) ≤ size) := by omega
            simp only [if_pos hn, if_neg hl, if_neg hr, Option.map_none']
        · have hr : ¬ ((splitLoop k (strsep (c :: cs)).2).length + 1 = 0 ∨
              n + ((splitLoop k (strsep (c :: cs)).2).length + 1) ≤ size) := by omega
          simp only [if_neg hn, if_neg hr]

/-- The parse of `MyNode::updateGroup`, whose buffer is one byte: the first
`max` desired members of the text when there is at most one of them, a fault
when there are two or more. -/
theorem parseMembers_one (k : Nat) (p : Option (List Char)) :
    parseMembers 1 k 0 p =
      if ((desiredMembers p).take k).length ≤ 1 then some ((desiredMembers p).take k)
      else none := by
  rw [parseMembers_eq_map, splitLoop_eq_take, desiredMembers, List.map_take]
  by_cases h : (List.take k (List.map (fun t => toUint8 (strtol t)) (splitItems p))).length ≤ 1
  · have h' : (List.take k (splitItems p)).length = 0 ∨
        0 + (List.take k (splitItems p)).length ≤ 1 := by
      simp only [List.length_take, List.length_map] at h ⊢
      omega
    rw [if_pos h, if_pos h']
  · have h' : ¬ ((List.take k (splitItems p)).length = 0 ∨
        0 + (List.take k (splitItems p)).length ≤ 1) := by
      simp only [List.length_take, List.length_map] at h ⊢
      omega
    rw [if_neg h, if_neg h']

/-! ## Group reconciliation -/

/-- A call of `MyNode::updateGroup` that finds the group and stores at most
one member returns the commands of the two passes over the first `max`
desired members. -/
theorem updateGroup_of_one_store (homeId : Nat) (self : MyNode) (node grp : Nat)
    (glist : Option (List Char)) (g : MyGroup) (hg : self.getGroup grp = some g)
    (hfit : ((desiredMembers glist).take g.max).length ≤ 1) :
    self.updateGroup homeId node grp glist
      = some ((((desiredMembers glist).take g.max).filter
            (fun x => !g.grouplist.contains x)).map (Cmd.AddAssociation homeId node grp)
          ++ (g.grouplist.filter
            (fun y => !((desiredMembers glist).take g.max).contains y)).map
              (Cmd.RemoveAssociation homeId node grp)) := by
  simp only [MyNode.updateGroup, hg, parseMembers_one, if_pos hfit]

/-- A call of `MyNode::updateGroup` that finds the group and has two members
or more to store faults: the second store falls outside the one-byte
buffer. -/
theorem updateGroup_of_two_stores (homeId : Nat) (self : MyNode) (node grp : Nat)
    (glist : Option (List Char)) (g : MyGroup) (hg : self.getGroup grp = some g)
    (hover : 1 < ((desiredMembers glist).take g.max).length) :
    self.updateGroup homeId node grp glist = none := by
  simp only [MyNode.updateGroup, hg, parseMembers_one, if_neg (not_le.mpr hover)]

/-- The commands of the two passes of `MyNode::updateGroup` over the parsed
members `v` and the mirrored list `M`: an add-association for `x` exactly
when `x` is in `v` and not in `M`, a remove-association for `y` exactly when
`y` is in `M` and not in `v`, and nothing else. -/
theorem passes_commands (homeId node grp : Nat) (v M : List Nat) :
    (∀ x, Cmd.AddAssociation homeId node grp x ∈
          (v.filter (fun x => !M.contains x)).map (Cmd.AddAssociation homeId node grp)
            ++ (M.filter (fun y => !v.contains y)).map (Cmd.RemoveAssociation homeId node grp) ↔
        x ∈ v ∧ x ∉ M) ∧
    (∀ y, Cmd.RemoveAssociation homeId node grp y ∈
          (v.filter (fun x => !M.contains x)).map (Cmd.AddAssociation homeId node grp)
            ++ (M.filter (fun y => !v.contains y)).map (Cmd.RemoveAssociation homeId node grp) ↔
        y ∈ M ∧ y ∉ v) ∧
    (∀ c ∈ (v.filter (fun x => !M.contains x)).map (Cmd.AddAssociation homeId node grp)
            ++ (M.filter (fun y => !v.contains y)).map (Cmd.RemoveAssociation homeId node grp),
        (∃ x, c = Cmd.AddAssociation homeId node grp x ∧ x ∈ v ∧ x ∉ M) ∨
        (∃ y, c = Cmd.RemoveAssociation homeId node grp y ∧ y ∈ M ∧ y ∉ v)) := by
  refine ⟨fun x => by simp, fun y => by simp, ?_⟩
  intro c hc
  simp only [List.mem_append, List.mem_map, List.mem_filter] at hc
  rcases hc with ⟨x, ⟨hx, hnx⟩, rfl⟩ | ⟨y, ⟨hy, hny⟩, rfl⟩
  · exact Or.inl ⟨x, rfl, hx, by simpa using hnx⟩
  · exact Or.inr ⟨y, rfl, hy, by simpa using hny⟩

/-- C1: for a node whose group record `grp` mirrors the member list `M`, and
a desired-members text that parses, capped at the capacity of the group, to
the list `L`, the call `MyNode::updateGroup(node, grp, text)` returns
commands with an add-association for `x` exactly when `x` is in `L` and not
in `M`, a remove-association for `y` exactly when `y` is in `M` and not in
`L`, and nothing else, if and only if `L` has at most one member.  With two
members or more the second store of the parsing loop falls outside the
one-byte scratch buffer and the call faults before it sends a command. -/
theorem updateGroup_commands_iff_one_store (homeId : Nat) (self : MyNode) (node grp : Nat)
    (glist : Option (List Char)) (g : MyGroup) (M L : List Nat)
    (hg : self.getGroup grp = some g) (hM : g.grouplist = M)
    (hL : (desiredMembers glist).take g.max = L) :
    (∃ cmds, self.updateGroup homeId node grp glist = some cmds ∧
      (∀ x, Cmd.AddAssociation homeId node grp x ∈ cmds ↔ x ∈ L ∧ x ∉ M) ∧
      (∀ y, Cmd.RemoveAssociation homeId node grp y ∈ cmds ↔ y ∈ M ∧ y ∉ L) ∧
      (∀ c ∈ cmds,
        (∃ x, c = Cmd.AddAssociation homeId node grp x ∧ x ∈ L ∧ x ∉ M) ∨
        (∃ y, c = Cmd.RemoveAssociation homeId node grp y ∧ y ∈ M ∧ y ∉ L))) ↔
      L.length ≤ 1 := by
  subst hM hL
  constructor
  · rintro ⟨cmds, hc, _⟩
    by_contra hlen
    rw [updateGroup_of_two_stores homeId self node grp glist g hg (not_le.mp hlen)] at hc
    exact Option.noConfusion hc
  · intro hfit
    exact ⟨_, updateGroup_of_one_store homeId self node grp glist g hg hfit,
      passes_commands homeId node grp _ _⟩

/-- C1 at the scenario of the specification: `updateGroup(7, 1, "3,4,9")` on
a group of capacity 5 holding 4 and 5 faults, and so returns no commands
add(3), add(9), remove(5). -/
theorem updateGroup_commands_iff_one_store_witness :
    MyNode.updateGroup 0 nodeWithGroup45 7 1 (some "3,4,9".toList) = none ∧
      ¬ ∃ cmds, MyNode.updateGroup 0 nodeWithGroup45 7 1 (some "3,4,9".toList) = some cmds ∧
        (∀ x, Cmd.AddAssociation 0 7 1 x ∈ cmds ↔ x ∈ [3, 4, 9] ∧ x ∉ [4, 5]) ∧
        (∀ y, Cmd.RemoveAssociation 0 7 1 y ∈ cmds ↔ y ∈ [4, 5] ∧ y ∉ [3, 4, 9]) ∧
        (∀ c ∈ cmds,
          (∃ x, c = Cmd.AddAssociation 0 7 1 x ∧ x ∈ [3, 4, 9] ∧ x ∉ [4, 5]) ∨
          (∃ y, c = Cmd.RemoveAssociation 0 7 1 y ∧ y ∈ [4, 5] ∧ y ∉ [3, 4, 9])) :=
  ⟨by decide, fun h => absurd
    ((updateGroup_commands_iff_one_store 0 nodeWithGroup45 7 1 (some "3,4,9".toList)
      ⟨1, 5, "", [4, 5]⟩ [4, 5] [3, 4, 9] (by decide) (by decide) (by decide)).mp h)
    (by decide)⟩

theorem driverAfter_adds (homeId node grp : Nat) (xs : List Nat) :
    ∀ S : Finset Nat,
      driverAfter homeId node grp S (xs.map (Cmd.AddAssociation homeId node grp))
        = S ∪ xs.toFinset := by
  induction xs with
  | nil => intro S; simp [driverAfter]
  | cons x xs ih =>
    intro S
    have h := ih (insert x S)
    simp only [driverAfter, List.map_cons, List.foldl_cons, applyAssociation, and_self,
      if_true, List.toFinset_cons] at h ⊢
    rw [h]
    ext a
    simp only [Finset.mem_union, Finset.mem_insert, List.mem_toFinset]
    tauto

theorem driverAfter_removes (homeId node grp : Nat) (ys : List Nat) :
    ∀ S : Finset Nat,
      driverAfter homeId node grp S (ys.map (Cmd.RemoveAssociation homeId node grp))
        = S \ ys.toFinset := by
  induction ys with
  | nil => intro S; simp [driverAfter]
  | cons y ys ih =>
    intro S
    have h := ih (S.erase y)
    simp only [driverAfter, List.map_cons, List.foldl_cons, applyAssociation, and_self,
      if_true, List.toFinset_cons] at h ⊢
    rw [h]
    ext a
    simp only [Finset.mem_sdiff, Finset.mem_erase, Finset.mem_insert, List.mem_toFinset]
    tauto

theorem driverAfter_append (homeId node grp : Nat) (S : Finset Nat) (c1 c2 : List Cmd) :
    driverAfter homeId node grp S (c1 ++ c2)
      = driverAfter homeId node grp (driverAfter homeId node grp S c1) c2 := by
  simp [driverAfter, List.foldl_append]

/-- The driver-side member set after the commands of the two passes of
`MyNode::updateGroup` over the parsed members `v`, when the mirrored list `M`
and the driver hold the same members: the set of the parsed members. -/
theorem driverAfter_passes (homeId node grp : Nat) (v M : List Nat) (S : Finset Nat)
    (hS : M.toFinset = S) :
    driverAfter homeId node grp S
        ((v.filter (fun x => !M.contains x)).map (Cmd.AddAssociation homeId node grp)
          ++ (M.filter (fun y => !v.contains y)).map (Cmd.RemoveAssociation homeId node grp))
      = v.toFinset := by
  subst hS
  simp only [driverAfter_append, driverAfter_adds, driverAfter_removes]
  ext a
  simp only [Finset.mem_sdiff, Finset.mem_union, List.mem_toFinset, List.mem_filter,
    Bool.not_eq_true', List.contains_eq_any_beq, List.any_eq_false, beq_iff_eq,
    List.any_eq_true, Bool.not_eq_eq_eq_not, Bool.not_true]
  constructor
  · rintro ⟨h1 | ⟨h2, _⟩, h3⟩
    · by_contra hna
      exact h3 ⟨h1, fun x hx hxa => hna (hxa ▸ hx)⟩
    · exact h2
  · intro ha
    refine ⟨?_, fun ⟨_, h⟩ => h a ha rfl⟩
    by_cases hm : a ∈ M
    · exact Or.inl hm
    · exact Or.inr ⟨ha, fun x hx hxa => hm (hxa ▸ hx)⟩

/-- C2: convergence of group reconciliation.  With the driver-side
membership of the group a set `S` on which add-association inserts and
remove-association deletes, and the mirrored member list holding the same
members as `S`, the call `MyNode::updateGroup(node, grp, glist)` returns
commands after which the member set is the set of the first
`min(|L|, capacity)` elements of the desired list `L` the text names, if and
only if there is at most one such element.  With two or more the second
store of the parsing loop falls outside the one-byte scratch buffer and the
call faults before it sends a command. -/
theorem updateGroup_converges_iff_one_store (homeId : Nat) (self : MyNode) (node grp : Nat)
    (glist : Option (List Char)) (g : MyGroup) (S : Finset Nat)
    (hg : self.getGroup grp = some g) (hS : g.grouplist.toFinset = S) :
    (∃ cmds, self.updateGroup homeId node grp glist = some cmds ∧
      driverAfter homeId node grp S cmds
        = ((desiredMembers glist).take (min (desiredMembers glist).length g.max)).toFinset) ↔
      min (desiredMembers glist).length g.max ≤ 1 := by
  have htake : (desiredMembers glist).take g.max
      = (desiredMembers glist).take (min (desiredMembers glist).length g.max) := by
    rcases Nat.le_total (desiredMembers glist).length g.max with h | h
    · rw [Nat.min_eq_left h, List.take_of_length_le h, List.take_of_length_le (le_refl _)]
    · rw [Nat.min_eq_right h]
  have hlen : ((desiredMembers glist).take g.max).length
      = min (desiredMembers glist).length g.max := by
    rw [List.length_take, Nat.min_comm]
  constructor
  · rintro ⟨cmds, hc, _⟩
    by_contra hover
    rw [← hlen] at hover
    rw [updateGroup_of_two_stores homeId self node grp glist g hg (not_le.mp hover)] at hc
    exact Option.noConfusion hc
  · intro hfit
    rw [← hlen] at hfit
    refine ⟨_, updateGroup_of_one_store homeId self node grp glist g hg hfit, ?_⟩
    rw [driverAfter_passes homeId node grp _ _ S hS, htake]

/-- C2 at the scenario of the specification: from the driver-side members 4
and 5, the call for the text "3,4,9" faults, and so returns no commands that
leave the members 3, 4 and 9. -/
theorem updateGroup_converges_iff_one_store_witness :
    MyNode.updateGroup 0 nodeWithGroup45 7 1 (some "3,4,9".toList) = none ∧
      ¬ ∃ cmds, MyNode.updateGroup 0 nodeWithGroup45 7 1 (some "3,4,9".toList) = some cmds ∧
        driverAfter 0 7 1 {4, 5} cmds
          = ((desiredMembers (some "3,4,9".toList)).take
              (min (desiredMembers (some "3,4,9".toList)).length 5)).toFinset :=
  ⟨by decide, fun h => absurd
    ((updateGroup_converges_iff_one_store 0 nodeWithGroup45 7 1 (some "3,4,9".toList)
      ⟨1, 5, "", [4, 5]⟩ {4, 5} (by decide) (by decide)).mp h)
    (by decide)⟩

theorem getGroup_pushMembers (gs : List MyGroup) (grp : Nat) (ms : List Nat) (g : MyGroup)
    (hg : gs.find? (fun p => p.groupid == grp) = some g) :
    (pushMembers grp ms gs).find? (fun p => p.groupid == grp)
      = some { g with grouplist := g.grouplist ++ ms } := by
  induction gs with
  | nil => simp at hg
  | cons p ps ih =>
    by_cases hp : (p.groupid == grp) = true
    · simp only [List.find?_cons, hp, Option.some.injEq] at hg
      subst hg
      simp [pushMembers, hp]
    · simp only [List.find?_cons, hp] at hg
      simp only [pushMembers, hp, Bool.false_eq_true, if_false, List.find?_cons]
      exact ih hg

/-- The second reconciliation in general: once `MyNode::addGroup` has pushed
the driver's members, which are the desired ones, behind the mirrored list,
the same `updateGroup` call (one that stores at most one member) sends no
add-association command, and a remove-association command for every member
of the old mirrored list that is not desired, as the first call did. -/
theorem updateGroup_after_addGroup (mgr : Manager) (homeId : Nat) (nd : MyNode)
    (node grp n : Nat) (glist : Option (List Char)) (g : MyGroup) (v : List Nat)
    (hg : nd.getGroup grp = some g)
    (hfit : ((desiredMembers glist).take g.max).length ≤ 1)
    (hv : ∀ x, x ∈ v.take n ↔ x ∈ (desiredMembers glist).take g.max) :
    (nd.addGroup mgr homeId node grp n v).updateGroup homeId node grp glist
      = some ((g.grouplist.filter
          (fun y => !((desiredMembers glist).take g.max).contains y)).map
            (Cmd.RemoveAssociation homeId node grp)) := by
  have hne : nd.groups.length ≠ 0 := by
    intro h0
    rw [List.length_eq_zero] at h0
    simp [MyNode.getGroup, h0] at hg
  have hg2 : (nd.addGroup mgr homeId node grp n v).getGroup grp
      = some { g with grouplist := g.grouplist ++ v.take n } := by
    simp only [MyNode.addGroup, MyNode.getGroup, hne, if_false]
    exact getGroup_pushMembers nd.groups grp (v.take n) g hg
  have hadd : ((desiredMembers glist).take g.max).filter
      (fun x => !(g.grouplist ++ v.take n).contains x) = [] := by
    rw [List.filter_eq_nil_iff]
    intro x hx
    have hm : x ∈ v.take n := (hv x).mpr hx
    simpa using fun _ => hm
  have hrem : (v.take n).filter
      (fun y => !((desiredMembers glist).take g.max).contains y) = [] := by
    rw [List.filter_eq_nil_iff]
    intro y hy
    have hy2 := (hv y).mp hy
    simpa using hy2
  rw [updateGroup_of_one_store homeId _ node grp glist _ hg2 hfit]
  simp only [hadd, List.map_nil, List.nil_append, List.filter_append, hrem, List.append_nil]

set_option maxRecDepth 8000 in
/-- C3, evaluated on node 7, whose group 1 (capacity 5) mirrors 4 and 5.
With the desired text "4", `updateGroup(7, 1, "4")` sends remove(5); the
driver then holds 4 alone and the group-changed notification appends that
member to the mirrored list, which becomes 4, 5, 4; the second
`updateGroup(7, 1, "4")` sends remove(5) again.  With the desired text
"3,4,9" of the specification the first call already faults at the second
store into its one-byte scratch buffer. -/
theorem updateGroup_second_call_removes_again :
    MyNode.updateGroup 0 nodeWithGroup45 7 1 (some "4".toList)
        = some [Cmd.RemoveAssociation 0 7 1 5] ∧
      driverAfter 0 7 1 {4, 5} [Cmd.RemoveAssociation 0 7 1 5] = [4].toFinset ∧
      (OnNotification 255 (driverReporting [4]) 0 registryWithNode7
          (groupChanged 7 1)).bind (fun s => s.nodes[7]?)
        = some (some ⟨0, 0, [], [⟨1, 5, "", [4, 5, 4]⟩]⟩) ∧
      MyNode.updateGroup 0 ⟨0, 0, [], [⟨1, 5, "", [4, 5, 4]⟩]⟩ 7 1 (some "4".toList)
        = some [Cmd.RemoveAssociation 0 7 1 5] ∧
      MyNode.updateGroup 0 nodeWithGroup45 7 1 (some "3,4,9".toList) = none := by
  refine ⟨by decide, by decide, by decide, by decide, by decide⟩

/-! ## The node table -/

/-- C8: for every address outside `[1, MAX_NODES]` and every registry state,
creating a node at that address and `MyNode::remove` of it change nothing:
the node table and `MyNode::nodecount` (and every other global) are as
before. -/
theorem create_remove_out_of_range (MAX_NODES : Nat) (mgr : Manager) (now : Nat)
    (st : State) (a : Int) (h : a < 1 ∨ a > MAX_NODES) :
    MyNode.create MAX_NODES mgr now st a = some st ∧ MyNode.remove MAX_NODES st a = some st := by
  simp [MyNode.create, MyNode.remove, h]

/-- C8 at address 256 of a table of 255 slots holding node 7. -/
theorem create_remove_out_of_range_witness :
    ((256 : Int) < 1 ∨ (256 : Int) > (255 : Nat)) ∧
      MyNode.create 255 (driverReporting []) 0 registryWithNode7 256 = some registryWithNode7 ∧
      MyNode.remove 255 registryWithNode7 256 = some registryWithNode7 :=
  ⟨by decide,
   create_remove_out_of_range 255 (driverReporting []) 0 registryWithNode7 256 (by decide)⟩

theorem create_in_table (MAX_NODES : Nat) (mgr : Manager) (now : Nat) (st : State) (a : Nat)
    (h1 : 1 ≤ a) (h2 : a ≤ MAX_NODES) (h3 : a < st.nodes.length) :
    ∃ st', MyNode.create MAX_NODES mgr now st (a : Int) = some st' ∧
      st'.nodes.length = st.nodes.length ∧ (∃ nd, st'.nodes[a]? = some (some nd)) ∧
      (∀ i, i ≠ a → st'.nodes[i]? = st.nodes[i]?) := by
  have hr : ¬ ((a : Int) < 1 ∨ (a : Int) > (MAX_NODES : Int)) := by omega
  simp only [MyNode.create, if_neg hr, Int.toNat_ofNat, if_pos h3]
  refine ⟨_, rfl, ?_, ?_, ?_⟩
  · simp
  · exact ⟨(MyNode.newGroup mgr st.homeId ⟨0, 0, [], []⟩ (toUint8 (a : Int))).setTime now,
      by simp [List.getElem?_set, h3]⟩
  · intro i hi
    simp [List.getElem?_set, Ne.symm hi]

theorem remove_in_table (MAX_NODES : Nat) (st : State) (a : Nat)
    (h1 : 1 ≤ a) (h2 : a ≤ MAX_NODES) (h3 : a < st.nodes.length) :
    ∃ st', MyNode.remove MAX_NODES st (a : Int) = some st' ∧
      st'.nodes.length = st.nodes.length ∧ st'.nodes[a]? = some none ∧
      (∀ i, i ≠ a → st'.nodes[i]? = st.nodes[i]?) ∧
      st'.done = st.done ∧ st'.needsave = st.needsave := by
  have hr : ¬ ((a : Int) < 1 ∨ (a : Int) > (MAX_NODES : Int)) := by omega
  simp only [MyNode.remove, if_neg hr, Int.toNat_ofNat]
  cases hs : st.nodes[a]? with
  | none =>
    have := List.getElem?_eq_none_iff.mp hs
    omega
  | some slot =>
    cases slot with
    | none => exact ⟨st, rfl, rfl, hs, fun _ _ => rfl, rfl, rfl⟩
    | some nd =>
      refine ⟨_, rfl, by simp, by simp [List.getElem?_set, h3], ?_, rfl, rfl⟩
      intro i hi
      simp [List.getElem?_set, Ne.symm hi]

/-- The store of `new MyNode(MAX_NODES)` and the read of
`MyNode::remove(MAX_NODES)` fall outside a table of `MAX_NODES` slots. -/
theorem create_remove_at_MAX_NODES (MAX_NODES : Nat) (mgr : Manager) (now : Nat) (st : State)
    (h1 : 1 ≤ MAX_NODES) (hlen : st.nodes.length = MAX_NODES) :
    MyNode.create MAX_NODES mgr now st (MAX_NODES : Int) = none ∧
      MyNode.remove MAX_NODES st (MAX_NODES : Int) = none := by
  have hr : ¬ ((MAX_NODES : Int) < 1 ∨ (MAX_NODES : Int) > (MAX_NODES : Int)) := by omega
  have hget : st.nodes[MAX_NODES]? = none := List.getElem?_eq_none_iff.mpr (by omega)
  constructor
  · rw [MyNode.create, if_neg hr]
    simp [hlen]
  · rw [MyNode.remove, if_neg hr]
    simp [hget]

theorem nodeEvent_step (MAX_NODES a : Nat) (h1 : 1 ≤ a) (h2 : a < MAX_NODES) (mgr : Manager)
    (now : Nat) (st : State) (n : Notification) (hlen : st.nodes.length = MAX_NODES)
    (hn : n.nodeId = a)
    (ht : n.type = NotificationType.NodeAdded ∨ n.type = NotificationType.NodeRemoved) :
    ∃ st', OnNotification MAX_NODES mgr now st n = some st' ∧
      st'.nodes.length = MAX_NODES ∧
      ((∃ nd, st'.nodes[a]? = some (some nd)) ↔ n.type = NotificationType.NodeAdded) := by
  rcases ht with ht | ht
  · obtain ⟨st', hc, hl, hs, _⟩ := create_in_table MAX_NODES mgr now
      { st with nodesChanged := true } a h1 (by omega) (by simpa [hlen] using h2)
    refine ⟨st', ?_, by simpa [hlen] using hl, ?_⟩
    · simp only [OnNotification, ht, hn]
      exact hc
    · simp [ht, hs]
  · obtain ⟨st', hc, hl, hs, _⟩ := remove_in_table MAX_NODES
      { st with nodesChanged := true } a h1 (by omega) (by simpa [hlen] using h2)
    refine ⟨{ st' with needsave := true }, ?_, by simpa [hlen] using hl, ?_⟩
    · simp only [OnNotification, ht, hn, hc, Option.map_some']
    · simp [ht, hs]

theorem nodeEvents_run (MAX_NODES a : Nat) (h1 : 1 ≤ a) (h2 : a < MAX_NODES)
    (evs : List (Manager × Nat × Notification))
    (hall : ∀ e ∈ evs, e.2.2.nodeId = a ∧
      (e.2.2.type = NotificationType.NodeAdded ∨ e.2.2.type = NotificationType.NodeRemoved)) :
    ∀ st : State, st.nodes.length = MAX_NODES →
      ∃ st', dispatchAll MAX_NODES st evs = some st' ∧ st'.nodes.length = MAX_NODES := by
  induction evs with
  | nil => intro st hlen; exact ⟨st, rfl, hlen⟩
  | cons e es ih =>
    intro st hlen
    obtain ⟨hn, ht⟩ := hall e (List.mem_cons_self _ _)
    obtain ⟨st1, hs1, hl1, _⟩ := nodeEvent_step MAX_NODES a h1 h2 e.1 e.2.1 st e.2.2 hlen hn ht
    obtain ⟨st2, hs2, hl2⟩ := ih (fun x hx => hall x (List.mem_cons_of_mem _ hx)) st1 hl1
    refine ⟨st2, ?_, hl2⟩
    simp only [dispatchAll, List.foldlM_cons, hs1, Option.bind_eq_bind, Option.some_bind] at hs2 ⊢
    exact hs2

/-- Last event wins at every address that is an index of the table: after a
non-empty run of node-added and node-removed notifications for an address
`a` with `1 ≤ a < MAX_NODES`, slot `a` holds a record exactly when the last
notification was node-added. -/
theorem nodeEvents_last_wins (MAX_NODES a : Nat) (h1 : 1 ≤ a) (h2 : a < MAX_NODES)
    (evs : List (Manager × Nat × Notification)) (hne : evs ≠ [])
    (hall : ∀ e ∈ evs, e.2.2.nodeId = a ∧
      (e.2.2.type = NotificationType.NodeAdded ∨ e.2.2.type = NotificationType.NodeRemoved))
    (st : State) (hlen : st.nodes.length = MAX_NODES) :
    ∃ st', dispatchAll MAX_NODES st evs = some st' ∧
      ((∃ nd, st'.nodes[a]? = some (some nd)) ↔
        (evs.getLast hne).2.2.type = NotificationType.NodeAdded) := by
  have hsplit := List.dropLast_append_getLast hne
  have hall1 : ∀ e ∈ evs.dropLast, e.2.2.nodeId = a ∧
      (e.2.2.type = NotificationType.NodeAdded ∨ e.2.2.type = NotificationType.NodeRemoved) :=
    fun e he => hall e (List.mem_of_mem_dropLast he)
  obtain ⟨st1, hs1, hl1⟩ := nodeEvents_run MAX_NODES a h1 h2 evs.dropLast hall1 st hlen
  obtain ⟨hn, ht⟩ := hall (evs.getLast hne) (List.getLast_mem hne)
  obtain ⟨st2, hs2, _, hiff⟩ := nodeEvent_step MAX_NODES a h1 h2 (evs.getLast hne).1
    (evs.getLast hne).2.1 st1 (evs.getLast hne).2.2 hl1 hn ht
  refine ⟨st2, ?_, hiff⟩
  have hrun : dispatchAll MAX_NODES st (evs.dropLast ++ [evs.getLast hne]) = some st2 := by
    simp only [dispatchAll] at hs1
    simp only [dispatchAll, List.foldlM_append, hs1, List.foldlM_cons, List.foldlM_nil,
      Option.bind_eq_bind, Option.some_bind, hs2]
    rfl
  rw [hsplit] at hrun
  exact hrun

/-- C9, evaluated at the address `MAX_NODES`, with a table of 255 slots: the
address 255 passes the range check of the constructor, the store to
`nodes[255]` falls outside the table, and the dispatch of node-added(255)
faults; no slot 255 exists to hold the record. -/
theorem node_added_at_MAX_NODES_faults :
    dispatchAll 255 (emptyRegistry 255) [(driverReporting [], 0, nodeAdded 255)] = none := by
  have h := (create_remove_at_MAX_NODES 255 (driverReporting []) 0
    { emptyRegistry 255 with nodesChanged := true } (by decide)
    (List.length_replicate 255 none)).1
  simp only [dispatchAll, List.foldlM_cons, List.foldlM_nil, OnNotification, nodeAdded]
  simp only [Nat.cast_ofNat] at h ⊢
  rw [h]
  rfl

/-- The rounds `i = s, .., s + n - 1` of the reset loop, all within the
table: they return, the slots `s .. s + n - 1` are then empty, the other
slots and the flags are as before. -/
theorem removeRounds_clear (MAX_NODES : Nat) (n : Nat) :
    ∀ (s : Nat) (st : State), 1 ≤ s → s + n ≤ st.nodes.length → s + n ≤ MAX_NODES + 1 →
      ∃ st', (List.range' s n).foldlM (fun t (i : Nat) => MyNode.remove MAX_NODES t (i : Int)) st
          = some st' ∧
        st'.nodes.length = st.nodes.length ∧
        (∀ i, s ≤ i → i < s + n → st'.nodes[i]? = some none) ∧
        (∀ i, i < s ∨ s + n ≤ i → st'.nodes[i]? = st.nodes[i]?) ∧
        st'.done = st.done ∧ st'.needsave = st.needsave := by
  induction n with
  | zero =>
    intro s st _ _ _
    exact ⟨st, rfl, rfl, fun i h1 h2 => by omega, fun _ _ => rfl, rfl, rfl⟩
  | succ n ih =>
    intro s st hs hlen hmax
    obtain ⟨st1, hr1, hl1, hc1, ho1, hd1, hn1⟩ :=
      remove_in_table MAX_NODES st s hs (by omega) (by omega)
    obtain ⟨st2, hr2, hl2, hc2, ho2, hd2, hn2⟩ := ih (s + 1) st1 (by omega) (by omega) (by omega)
    refine ⟨st2, ?_, by omega, ?_, ?_, by rw [hd2, hd1], by rw [hn2, hn1]⟩
    · simp only [List.range'_succ, List.foldlM_cons, hr1, Option.bind_eq_bind,
        Option.some_bind]
      exact hr2
    · intro i hi1 hi2
      by_cases hi : i = s
      · subst hi
        rw [ho2 i (Or.inl (by omega)), hc1]
      · exact hc2 i (by omega) (by omega)
    · intro i hi
      rw [ho2 i (by omega), ho1 i (by omega)]

/-- The reset loop `for (i = 1; i <= MAX_NODES; i++) MyNode::remove(i)` on a
table of `MAX_NODES` slots: the rounds `1 .. MAX_NODES - 1` empty the slots
`1 .. MAX_NODES - 1`, and the last round reads `nodes[MAX_NODES]`, outside
the table, so the loop faults. -/
theorem removeAll_faults (MAX_NODES : Nat) (st : State) (h1 : 1 ≤ MAX_NODES)
    (hlen : st.nodes.length = MAX_NODES) :
    (∃ st', (List.range' 1 (MAX_NODES - 1)).foldlM
          (fun t (i : Nat) => MyNode.remove MAX_NODES t (i : Int)) st = some st' ∧
        (∀ i, 1 ≤ i → i < MAX_NODES → st'.nodes[i]? = some none) ∧
        st'.done = st.done ∧ st'.needsave = st.needsave ∧
        MyNode.remove MAX_NODES st' (MAX_NODES : Int) = none) ∧
      removeAll MAX_NODES st = none := by
  obtain ⟨m, rfl⟩ : ∃ m, MAX_NODES = m + 1 := ⟨MAX_NODES - 1, by omega⟩
  obtain ⟨st1, hr, hl, hc, _, hd, hn⟩ :=
    removeRounds_clear (m + 1) m 1 st (le_refl _) (by omega) (by omega)
  have hfault := (create_remove_at_MAX_NODES (m + 1) ⟨fun _ _ => 0, fun _ _ _ => 0,
    fun _ _ _ => "", fun _ _ _ => [], fun _ => false, fun _ => false⟩ 0 st1 (by omega)
    (by omega)).2
  refine ⟨⟨st1, by simpa using hr, fun i hi1 hi2 => hc i hi1 (by omega), hd, hn, hfault⟩, ?_⟩
  have hlast : (1 : Nat) + m = m + 1 := by omega
  simp only [removeAll, List.range'_concat, List.foldlM_append, hr, List.foldlM_cons,
    List.foldlM_nil, Option.bind_eq_bind, Option.some_bind, Nat.one_mul, hlast, hfault]
  rfl

/-- C10, evaluated on a table of 255 slots holding node 7: the driver-reset
dispatch clears the flags `done` and `needsave`, its loop empties the slots
1 to 254 and then reads `nodes[255]`, one past the last slot, where it
faults; the claimed final state with every slot of `[1, MAX_NODES]` empty is
not reached. -/
theorem driver_reset_faults :
    OnNotification 255 (driverReporting []) 0 registryWithNode7 (driverReset 0) = none := by
  have h := (removeAll_faults 255
    { registryWithNode7 with
      nodesChanged := true, done := false, needsave := false, homeId := 0,
      cmode := controllerMode (driverReporting []) 0 } (by decide)
    (by simp only [registryWithNode7, emptyRegistry, List.length_set, List.length_replicate])).2
  simp only [OnNotification, driverReset]
  exact h

/-! ## The poll-list updater -/

/-- C6: when the key text and the flag text split into different numbers of
items, `MyNode::updatePoll` returns before its main loop, whatever the fuel:
it sends no enable-poll and no disable-poll command and the driver state is
the one it was given. -/
theorem updatePoll_length_mismatch {D : Type} (T : Tables) (st : State) (pd : PollDriver D)
    (fuel : Nat) (ilist plist : Option (List Char)) (d : D)
    (h : (splitItems ilist).length ≠ (splitItems plist).length) :
    MyNode.updatePoll T st pd fuel ilist plist d = Outcome.returns ([], d) := by
  simp [MyNode.updatePoll, h]

/-- C6 at three value keys and two flags. -/
theorem updatePoll_length_mismatch_witness :
    (splitItems (some "2-SWITCH MULTILEVEL-user-byte-1-0,2-BASIC-user-byte-1-0,x".toList)).length
        = 3 ∧
      (splitItems (some "1,0".toList)).length = 2 ∧
      MyNode.updatePoll sampleTables registryWithValue listPollDriver 0
          (some "2-SWITCH MULTILEVEL-user-byte-1-0,2-BASIC-user-byte-1-0,x".toList)
          (some "1,0".toList) []
        = Outcome.returns ([], []) :=
  ⟨by decide, by decide,
   updatePoll_length_mismatch sampleTables registryWithValue listPollDriver 0
     (some "2-SWITCH MULTILEVEL-user-byte-1-0,2-BASIC-user-byte-1-0,x".toList)
     (some "1,0".toList) [] (by decide)⟩

/-- A key that does not resolve stops the main loop of `MyNode::updatePoll`
for good: the `continue` re-enters the loop with the same iterators, so no
amount of fuel lets the loop return. -/
theorem updatePollLoop_stuck {D : Type} (T : Tables) (st : State) (pd : PollDriver D)
    (it : List Char) (ids : List (List Char)) (pit : Bool) (polls : List Bool) (d : D)
    (out : List PollCmd) (h : MyNode.lookup T st it = some none) :
    ∀ fuel, updatePollLoop T st pd fuel (it :: ids) (pit :: polls) d out = Outcome.outOfFuel := by
  intro fuel
  induction fuel with
  | zero => rfl
  | succ k ih => simp only [updatePollLoop, h, ih]

set_option maxRecDepth 8000 in
/-- C7, evaluated at the keys `9-BASIC-user-byte-1-0,2-SWITCH MULTILEVEL-user-byte-1-0`
with the flags `1,1`, on a registry with no node 9 and with the second key
resolving at node 2: the first key does not resolve, the `continue` skips
the increment of the iterators, and the loop never returns; the later key is
never reached and no command is sent for it. -/
theorem updatePoll_unresolved_key_never_returns :
    MyNode.lookup sampleTables registryWithValue "9-BASIC-user-byte-1-0".toList = some none ∧
      MyNode.lookup sampleTables registryWithValue "2-SWITCH MULTILEVEL-user-byte-1-0".toList
        = some (some ⟨sampleValueID⟩) ∧
      ∀ fuel, MyNode.updatePoll sampleTables registryWithValue listPollDriver fuel
          (some "9-BASIC-user-byte-1-0,2-SWITCH MULTILEVEL-user-byte-1-0".toList)
          (some "1,1".toList) []
        = Outcome.outOfFuel := by
  have h1 : MyNode.lookup sampleTables registryWithValue "9-BASIC-user-byte-1-0".toList
      = some none := by decide
  refine ⟨h1, by decide, fun fuel => ?_⟩
  have hi : splitItems (some "9-BASIC-user-byte-1-0,2-SWITCH MULTILEVEL-user-byte-1-0".toList)
      = ["9-BASIC-user-byte-1-0".toList, "2-SWITCH MULTILEVEL-user-byte-1-0".toList] := by
    decide
  have hp : (splitItems (some "1,1".toList)).map (fun np => np.head? == some '1')
      = [true, true] := by decide
  simp only [MyNode.updatePoll, hi, hp, List.length_cons, List.length_nil, ne_eq,
    not_true_eq_false, if_false]
  exact updatePollLoop_stuck _ _ _ _ _ _ _ _ _ h1 fuel

/-! ## Texts: decimal numbers, hyphen search -/

theorem isdigit_ofNat (d : Nat) (h : d < 10) :
    isdigit (Char.ofNat (48 + d)) = true ∧ (Char.ofNat (48 + d)).toNat - 48 = d := by
  interval_cases d <;> decide

theorem digitsValue_decimalLoop (f : Nat) :
    ∀ (n : Nat) (acc tail : List Char), n < f →
      digitsValue 0 (decimalLoop f n acc ++ tail) = digitsValue n (acc ++ tail) := by
  induction f with
  | zero => intro n acc tail h; omega
  | succ f ih =>
    intro n acc tail h
    obtain ⟨hd, hv⟩ := isdigit_ofNat (n % 10) (Nat.mod_lt _ (by decide))
    by_cases h0 : n / 10 = 0
    · simp only [decimalLoop, h0, if_true, List.cons_append, digitsValue, hd, hv]
      congr 1
      omega
    · simp only [decimalLoop, h0, if_false]
      rw [ih (n / 10) _ tail (by omega)]
      simp only [List.cons_append, digitsValue, hd, if_true, hv]
      congr 1
      omega

theorem decimalLoop_digits (f : Nat) :
    ∀ (n : Nat) (acc : List Char), (∀ c ∈ acc, isdigit c = true) →
      ∀ c ∈ decimalLoop f n acc, isdigit c = true := by
  induction f with
  | zero => intro n acc h c hc; exact h c hc
  | succ f ih =>
    intro n acc h
    have hd := (isdigit_ofNat (n % 10) (Nat.mod_lt _ (by decide))).1
    have hacc : ∀ c ∈ Char.ofNat (48 + n % 10) :: acc, isdigit c = true := by
      intro c hc
      rcases List.mem_cons.mp hc with rfl | hc
      · exact hd
      · exact h c hc
    by_cases h0 : n / 10 = 0
    · simpa only [decimalLoop, h0, if_true] using hacc
    · simpa only [decimalLoop, h0, if_false] using ih (n / 10) _ hacc

theorem decimal_digits (n : Nat) : ∀ c ∈ decimal n, isdigit c = true :=
  decimalLoop_digits (n + 1) n [] (fun _ h => by simp at h)

theorem decimalLoop_ne_nil (f : Nat) (n : Nat) (acc : List Char) :
    decimalLoop (f + 1) n acc ≠ [] := by
  induction f generalizing n acc with
  | zero =>
    by_cases h0 : n / 10 = 0 <;> simp [decimalLoop, h0]
  | succ f ih =>
    by_cases h0 : n / 10 = 0
    · simp [decimalLoop, h0]
    · rw [decimalLoop, if_neg h0]
      exact ih _ _

theorem decimal_ne_nil (n : Nat) : decimal n ≠ [] := decimalLoop_ne_nil n n []

theorem isdigit_not_special (c : Char) (h : isdigit c = true) :
    isspace c = false ∧ c ≠ '-' ∧ c ≠ '+' ∧ c ≠ ',' := by
  simp only [isdigit, Bool.and_eq_true, decide_eq_true_eq] at h
  refine ⟨?_, ?_, ?_, ?_⟩
  · simp only [isspace, Bool.or_eq_false_iff, beq_eq_false_iff_ne, ne_eq]
    refine ⟨⟨⟨⟨⟨?_, ?_⟩, ?_⟩, ?_⟩, ?_⟩, ?_⟩ <;> (rintro rfl; revert h; decide)
  all_goals (rintro rfl; revert h; decide)

/-- The function `strtol` on a text that starts with a digit. -/
theorem strtol_digit_head (c : Char) (r : List Char) (h : isdigit c = true) :
    strtol (c :: r) = min LONG_MAX (digitsValue 0 (c :: r) : Int) := by
  obtain ⟨hs, hm, hp, _⟩ := isdigit_not_special c h
  simp only [strtol, List.dropWhile_cons, hs, Bool.false_eq_true, if_false, hm, hp]

/-- Reading back a byte written in decimal, when the text ends there or goes
on with a character that is not a digit. -/
theorem toUint8_strtol_decimal (n : Nat) (hn : n < 256) (tail : List Char)
    (ht : ∀ c r, tail = c :: r → isdigit c = false) :
    toUint8 (strtol (decimal n ++ tail)) = n := by
  have hval : digitsValue 0 (decimal n ++ tail) = n := by
    rw [decimal, digitsValue_decimalLoop (n + 1) n [] tail (by omega), List.nil_append]
    cases tail with
    | nil => rfl
    | cons c r => simp [digitsValue, ht c r rfl]
  cases hd : decimal n with
  | nil => exact absurd hd (decimal_ne_nil n)
  | cons c r =>
    have hc : isdigit c = true := decimal_digits n c (by simp [hd])
    rw [hd, List.cons_append] at hval
    rw [List.cons_append, strtol_digit_head c _ hc, hval]
    have hle : (n : Int) ≤ LONG_MAX := by
      simp only [LONG_MAX]
      omega
    rw [min_eq_right hle]
    simp only [toUint8]
    omega

theorem no_hyphen_of_digits (l : List Char) (h : ∀ c ∈ l, isdigit c = true) :
    ∀ c ∈ l, (c != '-') = true := by
  intro c hc
  simpa using (isdigit_not_special c (h c hc)).2.1

/-- The hyphen search from the start of a hyphen-free segment finds the
hyphen that ends the segment. -/
theorem find_segment (data pre seg rest : List Char) (pos : Nat)
    (hdata : data = pre ++ (seg ++ '-' :: rest)) (hpos : pre.length = pos)
    (hseg : ∀ c ∈ seg, (c != '-') = true) :
    find data pos = some (pos + seg.length) := by
  subst hdata
  have h1 : List.dropWhile (fun c => c != '-') (seg ++ '-' :: rest) = '-' :: rest := by
    rw [List.dropWhile_append_of_pos hseg]
    simp [List.dropWhile_cons]
  have h2 : List.takeWhile (fun c => c != '-') (seg ++ '-' :: rest) = seg := by
    rw [List.takeWhile_append_of_pos hseg]
    simp [List.takeWhile_cons]
  simp only [find, List.drop_left' hpos, h1, h2]

theorem substr_segment (data pre seg rest : List Char) (pos len : Nat)
    (hdata : data = pre ++ (seg ++ rest)) (hpos : pre.length = pos) (hlen : seg.length = len) :
    substr data pos len = seg := by
  subst hdata
  simp only [substr, List.drop_left' hpos, List.take_left' hlen]

/-! ## The value locator -/

/-- What `MyNode::lookup` computes on a key of six fields, the first five
free of hyphens: the address is read from the head of the key, the class
name is rejected when `cclassNum` answers `0xFF`, the genre and type names
are passed through `valueGenreNum` and `valueTypeNum` unexamined, and the
identity so built is searched in the addressed node. -/
theorem lookup_six_fields (T : Tables) (st : State) (a c g t i x : List Char)
    (ha : ∀ ch ∈ a, (ch != '-') = true) (hc : ∀ ch ∈ c, (ch != '-') = true)
    (hg : ∀ ch ∈ g, (ch != '-') = true) (ht : ∀ ch ∈ t, (ch != '-') = true)
    (hi : ∀ ch ∈ i, (ch != '-') = true) (key : List Char)
    (hkey : key = a ++ '-' :: (c ++ '-' :: (g ++ '-' :: (t ++ '-' :: (i ++ '-' :: x))))) :
    MyNode.lookup T st key =
      if toUint8 (strtol key) = 0 then some none
      else if T.cclassNum c = 0xFF then some none
      else
        match st.nodes[toUint8 (strtol key)]? with
        | none => none
        | some none => some none
        | some (some n) =>
          some (n.values.find? (fun v => v.id ==
            (⟨st.homeId, toUint8 (strtol key), T.valueGenreNum g, T.cclassNum c,
              toUint8 (strtol i), toUint8 (strtol x), T.valueTypeNum t⟩ : ValueID))) := by
  have f1 : find key 0 = some (0 + a.length) :=
    find_segment key [] a _ 0 (by rw [hkey]; rfl) rfl ha
  have f2 : find key (0 + a.length + 1) = some (0 + a.length + 1 + c.length) :=
    find_segment key (a ++ ['-']) c (g ++ '-' :: (t ++ '-' :: (i ++ '-' :: x)))
      (0 + a.length + 1) (by rw [hkey]; simp) (by simp) hc
  have s2 : substr key (0 + a.length + 1) (0 + a.length + 1 + c.length - (0 + a.length + 1))
      = c :=
    substr_segment key (a ++ ['-']) c ('-' :: (g ++ '-' :: (t ++ '-' :: (i ++ '-' :: x))))
      _ _ (by rw [hkey]; simp) (by simp) (by omega)
  have f3 : find key (0 + a.length + 1 + c.length + 1)
      = some (0 + a.length + 1 + c.length + 1 + g.length) :=
    find_segment key (a ++ '-' :: (c ++ ['-'])) g (t ++ '-' :: (i ++ '-' :: x))
      _ (by rw [hkey]; simp) (by simp; omega) hg
  have s3 : substr key (0 + a.length + 1 + c.length + 1)
      (0 + a.length + 1 + c.length + 1 + g.length - (0 + a.length + 1 + c.length + 1)) = g :=
    substr_segment key (a ++ '-' :: (c ++ ['-'])) g ('-' :: (t ++ '-' :: (i ++ '-' :: x)))
      _ _ (by rw [hkey]; simp) (by simp; omega) (by omega)
  have f4 : find key (0 + a.length + 1 + c.length + 1 + g.length + 1)
      = some (0 + a.length + 1 + c.length + 1 + g.length + 1 + t.length) :=
    find_segment key (a ++ '-' :: (c ++ '-' :: (g ++ ['-']))) t (i ++ '-' :: x)
      _ (by rw [hkey]; simp) (by simp; omega) ht
  have s4 : substr key (0 + a.length + 1 + c.length + 1 + g.length + 1)
      (0 + a.length + 1 + c.length + 1 + g.length + 1 + t.length
        - (0 + a.length + 1 + c.length + 1 + g.length + 1)) = t :=
    substr_segment key (a ++ '-' :: (c ++ '-' :: (g ++ ['-']))) t ('-' :: (i ++ '-' :: x))
      _ _ (by rw [hkey]; simp) (by simp; omega) (by omega)
  have f5 : find key (0 + a.length + 1 + c.length + 1 + g.length + 1 + t.length + 1)
      = some (0 + a.length + 1 + c.length + 1 + g.length + 1 + t.length + 1 + i.length) :=
    find_segment key (a ++ '-' :: (c ++ '-' :: (g ++ '-' :: (t ++ ['-'])))) i x
      _ (by rw [hkey]; simp) (by simp; omega) hi
  have s5 : substr key (0 + a.length + 1 + c.length + 1 + g.length + 1 + t.length + 1)
      (0 + a.length + 1 + c.length + 1 + g.length + 1 + t.length + 1 + i.length
        - (0 + a.length + 1 + c.length + 1 + g.length + 1 + t.length + 1)) = i :=
    substr_segment key (a ++ '-' :: (c ++ '-' :: (g ++ '-' :: (t ++ ['-'])))) i ('-' :: x)
      _ _ (by rw [hkey]; simp) (by simp; omega) (by omega)
  have d6 : key.drop (0 + a.length + 1 + c.length + 1 + g.length + 1 + t.length + 1
      + i.length + 1) = x := by
    have hk : key = (a ++ '-' :: (c ++ '-' :: (g ++ '-' :: (t ++ '-' :: (i ++ ['-']))))) ++ x := by
      rw [hkey]; simp
    rw [hk]
    exact List.drop_left' (by simp; omega)
  simp only [MyNode.lookup, f1, f2, s2, f3, s3, f4, s4, f5, s5, d6]

theorem hyphen_free (l : List Char) (h : '-' ∉ l) : ∀ ch ∈ l, (ch != '-') = true := by
  intro ch hch
  simp only [bne_iff_ne, ne_eq]
  rintro rfl
  exact h hch

/-- The search of `MyNode::lookup` through the values of a node returns the
record `v` when `v` is among them and the identity searched is the one of
`v`. -/
theorem find_value (vs : List MyValue) (v : MyValue) (hv : v ∈ vs) :
    vs.find? (fun w => w.id == v.id) = some v := by
  cases hf : vs.find? (fun w => w.id == v.id) with
  | none =>
    have := List.find?_eq_none.mp hf v hv
    simp at this
  | some w =>
    have hw := List.find?_some hf
    simp only [beq_iff_eq] at hw
    cases w
    cases v
    simp only at hw
    rw [hw]

/-- C4, as amended: for a node at an address `a` of `[1, 255]` and a value
record `v` of its value list whose identity carries the address `a`, the
home id of the registry, a command class other than `0xFF`, and an instance
and index that are bytes, with table names free of hyphens that
`cclassNum`, `valueGenreNum` and `valueTypeNum` read back as the class,
genre and type of `v`, `MyNode::lookup` of the text key of `v` returns the
record `v`. -/
theorem lookup_formatKey (T : Tables) (st : State) (a : Nat) (nd : MyNode) (v : MyValue)
    (hslot : st.nodes[a]? = some (some nd)) (hv : v ∈ nd.values)
    (ha1 : 1 ≤ a) (ha2 : a < 256)
    (hnode : v.id.nodeId = a) (hhome : v.id.homeId = st.homeId)
    (hcls : v.id.commandClassId ≠ 0xFF) (hinst : v.id.inst < 256) (hidx : v.id.index < 256)
    (hc : T.cclassNum (T.cclassStr v.id.commandClassId) = v.id.commandClassId)
    (hg : T.valueGenreNum (T.valueGenreStr v.id.genre) = v.id.genre)
    (ht : T.valueTypeNum (T.valueTypeStr v.id.type) = v.id.type)
    (hcn : '-' ∉ T.cclassStr v.id.commandClassId)
    (hgn : '-' ∉ T.valueGenreStr v.id.genre)
    (htn : '-' ∉ T.valueTypeStr v.id.type) :
    MyNode.lookup T st (formatKey T v.id) = some (some v) := by
  have hkey := lookup_six_fields T st (decimal v.id.nodeId) (T.cclassStr v.id.commandClassId)
    (T.valueGenreStr v.id.genre) (T.valueTypeStr v.id.type) (decimal v.id.inst)
    (decimal v.id.index)
    (no_hyphen_of_digits _ (decimal_digits _)) (hyphen_free _ hcn) (hyphen_free _ hgn)
    (hyphen_free _ htn) (no_hyphen_of_digits _ (decimal_digits _)) (formatKey T v.id) rfl
  have hnd : toUint8 (strtol (formatKey T v.id)) = a := by
    rw [formatKey, hnode]
    exact toUint8_strtol_decimal a ha2 _ (fun ch r h => by
      simp only [List.cons.injEq] at h
      rw [← h.1]
      decide)
  have hin : toUint8 (strtol (decimal v.id.inst)) = v.id.inst := by
    have := toUint8_strtol_decimal v.id.inst hinst [] (fun ch r h => by simp at h)
    rwa [List.append_nil] at this
  have hix : toUint8 (strtol (decimal v.id.index)) = v.id.index := by
    have := toUint8_strtol_decimal v.id.index hidx [] (fun ch r h => by simp at h)
    rwa [List.append_nil] at this
  have hid : (⟨st.homeId, a, v.id.genre, v.id.commandClassId, v.id.inst, v.id.index,
      v.id.type⟩ : ValueID) = v.id := by
    rw [← hhome, ← hnode]
  rw [hkey, hnd, hc, hg, ht, hin, hix, hid, if_neg (by omega), if_neg hcls, hslot]
  simp only [find_value nd.values v hv]

set_option maxRecDepth 8000 in
/-- C4 at the key `2-SWITCH MULTILEVEL-user-byte-1-0` quoted in the
source. -/
theorem lookup_formatKey_witness :
    formatKey sampleTables sampleValueID = "2-SWITCH MULTILEVEL-user-byte-1-0".toList ∧
      MyNode.lookup sampleTables registryWithValue (formatKey sampleTables sampleValueID)
        = some (some ⟨sampleValueID⟩) :=
  ⟨by decide,
   lookup_formatKey sampleTables registryWithValue 2
     { type := 0, mtime := 0, values := [⟨sampleValueID⟩], groups := [] } ⟨sampleValueID⟩
     (by decide) (by decide) (by decide) (by decide) (by decide) (by decide) (by decide)
     (by decide) (by decide) (by decide) (by decide) (by decide) (by decide) (by decide)
     (by decide)⟩

set_option maxRecDepth 8000 in
/-- C4 as stated fails.  At a record of command class `0xFF`: the tables read
the printed class, genre and type names back as those of the record, the
record is in the value list of node 2, and `MyNode::lookup` of its key
answers `NULL`, by the guard `cls == 0xFF`.  It also answers `NULL` for the
key of `sampleValueID` held by node 2 when the home id of the registry is
another one than the record carries, when the record carries another
address than the one of its node, and when the class name holds a hyphen. -/
theorem lookup_formatKey_not_always :
    (registryWithSentinelClass.nodes[2]?
        = some (some { type := 0, mtime := 0, values := [⟨sentinelClassID⟩], groups := [] }) ∧
      sampleTables.cclassNum (sampleTables.cclassStr sentinelClassID.commandClassId)
        = sentinelClassID.commandClassId ∧
      sampleTables.valueGenreNum (sampleTables.valueGenreStr sentinelClassID.genre)
        = sentinelClassID.genre ∧
      sampleTables.valueTypeNum (sampleTables.valueTypeStr sentinelClassID.type)
        = sentinelClassID.type ∧
      formatKey sampleTables sentinelClassID = "2-UNKNOWN-user-byte-1-0".toList ∧
      MyNode.lookup sampleTables registryWithSentinelClass
          (formatKey sampleTables sentinelClassID) = some none ∧
      MyNode.lookup sampleTables registryWithSentinelClass
          (formatKey sampleTables sentinelClassID) ≠ some (some ⟨sentinelClassID⟩)) ∧
    MyNode.lookup sampleTables { registryWithValue with homeId := 1 }
        (formatKey sampleTables sampleValueID) = some none ∧
    MyNode.lookup sampleTables
        { registryWithValue with
          nodes := (List.replicate 255 none).set 2
            (some ⟨0, 0, [⟨{ sampleValueID with nodeId := 3 }⟩], []⟩) }
        (formatKey sampleTables { sampleValueID with nodeId := 3 }) = some none ∧
    (hyphenTables.cclassNum (hyphenTables.cclassStr 0x60) = 0x60 ∧
      MyNode.lookup hyphenTables
        { registryWithValue with
          nodes := (List.replicate 255 none).set 2
            (some ⟨0, 0, [⟨{ sampleValueID with commandClassId := 0x60 }⟩], []⟩) }
        (formatKey hyphenTables { sampleValueID with commandClassId := 0x60 }) = some none) := by
  refine ⟨⟨by decide, by decide, by decide, by decide, by decide, by decide, by decide⟩,
    by decide, by decide, by decide, by decide⟩

/-- A key whose address reads as zero (a text that is not a number, or a
number that is a multiple of 256) gets `NULL`. -/
theorem lookup_address_zero (T : Tables) (st : State) (data : List Char)
    (h : toUint8 (strtol data) = 0) : MyNode.lookup T st data = some none := by
  simp [MyNode.lookup, h]

theorem dropWhile_head_false {α : Type} (p : α → Bool) (l : List α) (h : α) (t : List α)
    (hd : l.dropWhile p = h :: t) : p h = false := by
  induction l with
  | nil => simp at hd
  | cons x xs ih =>
    by_cases hx : p x = true
    · rw [List.dropWhile_cons_of_pos hx] at hd
      exact ih hd
    · rw [List.dropWhile_cons_of_neg hx] at hd
      simp only [List.cons.injEq] at hd
      rw [← hd.1]
      simpa using hx

theorem dropWhile_split (l : List Char) (x : Char) (t : List Char)
    (hd : l.dropWhile (fun c => c != '-') = x :: t) :
    l.drop ((l.takeWhile (fun c => c != '-')).length + 1) = t ∧
      l.count '-' = t.count '-' + 1 := by
  have hx : x = '-' := by
    simpa using dropWhile_head_false _ _ x t hd
  have hsplit := List.takeWhile_append_dropWhile (fun c => c != '-') l
  have htw : (l.takeWhile (fun c => c != '-')).count '-' = 0 := by
    rw [List.count_eq_zero]
    intro hm
    simpa using List.mem_takeWhile_imp hm
  rw [hd] at hsplit
  generalize l.takeWhile (fun c => c != '-') = tw at hsplit htw
  subst hsplit
  constructor
  · have e : tw ++ x :: t = (tw ++ [x]) ++ t := by simp
    rw [e]
    exact List.drop_left' (by simp)
  · rw [List.count_append, htw, hx]
    simp

/-- Every successful hyphen search uses up one hyphen of the text. -/
theorem find_count (data : List Char) (pos p : Nat) (h : find data pos = some p) :
    (data.drop pos).count '-' = (data.drop (p + 1)).count '-' + 1 := by
  unfold find at h
  cases hd : List.dropWhile (fun c => c != '-') (data.drop pos) with
  | nil => simp [hd] at h
  | cons x t =>
    simp only [hd, Option.some.injEq] at h
    obtain ⟨h1, h2⟩ := dropWhile_split (data.drop pos) x t hd
    have e1 : data.drop (p + 1) = (data.drop pos).drop
        ((List.takeWhile (fun c => c != '-') (data.drop pos)).length + 1) := by
      rw [List.drop_drop, ← h]
      congr 1
    rw [e1, h1, h2]

/-- A key with fewer than five hyphens, that is with one of its six fields
missing, gets `NULL`. -/
theorem lookup_missing_field (T : Tables) (st : State) (data : List Char)
    (h : data.count '-' < 5) : MyNode.lookup T st data = some none := by
  cases f1 : find data 0 with
  | none => simp only [MyNode.lookup, f1, ite_self]
  | some p1 =>
    cases f2 : find data (p1 + 1) with
    | none => simp only [MyNode.lookup, f1, f2, ite_self]
    | some p2 =>
      cases f3 : find data (p2 + 1) with
      | none => simp only [MyNode.lookup, f1, f2, f3, ite_self]
      | some p3 =>
        cases f4 : find data (p3 + 1) with
        | none => simp only [MyNode.lookup, f1, f2, f3, f4, ite_self]
        | some p4 =>
          cases f5 : find data (p4 + 1) with
          | none => simp only [MyNode.lookup, f1, f2, f3, f4, f5, ite_self]
          | some p5 =>
            have c1 := find_count data 0 p1 f1
            have c2 := find_count data _ p2 f2
            have c3 := find_count data _ p3 f3
            have c4 := find_count data _ p4 f4
            have c5 := find_count data _ p5 f5
            rw [List.drop_zero] at c1
            omega

/-- A key whose class field is a name `cclassNum` answers `0xFF` for gets
`NULL`. -/
theorem lookup_unknown_class (T : Tables) (st : State) (a c rest : List Char)
    (ha : '-' ∉ a) (hc : '-' ∉ c) (hu : T.cclassNum c = 0xFF) :
    MyNode.lookup T st (a ++ '-' :: (c ++ '-' :: rest)) = some none := by
  have f1 : find (a ++ '-' :: (c ++ '-' :: rest)) 0 = some (0 + a.length) :=
    find_segment _ [] a _ 0 rfl rfl (hyphen_free a ha)
  have f2 : find (a ++ '-' :: (c ++ '-' :: rest)) (0 + a.length + 1)
      = some (0 + a.length + 1 + c.length) :=
    find_segment _ (a ++ ['-']) c rest _ (by simp) (by simp) (hyphen_free c hc)
  have s2 : substr (a ++ '-' :: (c ++ '-' :: rest)) (0 + a.length + 1)
      (0 + a.length + 1 + c.length - (0 + a.length + 1)) = c :=
    substr_segment _ (a ++ ['-']) c ('-' :: rest) _ _ (by simp) (by simp) (by omega)
  simp only [MyNode.lookup, f1, f2, s2, hu, if_true, ite_self]

/-- The genre and the type name of a key are not examined: whatever names
stand in the key, when the class name is known and the addressed node 2
holds the record built from the numbers `valueGenreNum` and `valueTypeNum`
answer for them, `MyNode::lookup` returns that record. -/
theorem lookup_genre_type_unexamined (T : Tables) (st : State) (nd : MyNode)
    (c g t : List Char) (hc : '-' ∉ c) (hg : '-' ∉ g) (ht : '-' ∉ t)
    (hk : T.cclassNum c ≠ 0xFF) (hslot : st.nodes[2]? = some (some nd))
    (hv : (⟨⟨st.homeId, 2, T.valueGenreNum g, T.cclassNum c, 1, 0, T.valueTypeNum t⟩⟩ : MyValue)
      ∈ nd.values) :
    MyNode.lookup T st
        (['2'] ++ '-' :: (c ++ '-' :: (g ++ '-' :: (t ++ '-' :: (['1'] ++ '-' :: ['0'])))))
      = some (some ⟨⟨st.homeId, 2, T.valueGenreNum g, T.cclassNum c, 1, 0,
          T.valueTypeNum t⟩⟩) := by
  have hkey := lookup_six_fields T st ['2'] c g t ['1'] ['0'] (by decide) (hyphen_free c hc)
    (hyphen_free g hg) (hyphen_free t ht) (by decide) _ rfl
  have hn : toUint8 (strtol (['2'] ++ '-' :: (c ++ '-' :: (g ++ '-' :: (t ++ '-' ::
      (['1'] ++ '-' :: ['0'])))))) = 2 := by
    have := toUint8_strtol_decimal 2 (by decide)
      ('-' :: (c ++ '-' :: (g ++ '-' :: (t ++ '-' :: (['1'] ++ '-' :: ['0'])))))
      (fun ch r h => by
        simp only [List.cons.injEq] at h
        rw [← h.1]
        decide)
    exact this
  have h1 : toUint8 (strtol ['1']) = 1 := by decide
  have h0 : toUint8 (strtol ['0']) = 0 := by decide
  rw [hkey, hn, h1, h0, if_neg (by decide), if_neg hk, hslot]
  simp only
  exact congrArg some (find_value nd.values _ hv)

set_option maxRecDepth 8000 in
/-- C5, evaluated at the key `2-SWITCH MULTILEVEL-bogus-byte-1-0`: `bogus` is
none of the genre names, `valueGenreNum` answers 255 for it, and
`MyNode::lookup`, which tests the class number against `0xFF` and the genre
and type numbers against nothing, goes on to search node 2 and returns the
record that carries this genre number; the same happens for the type name
of the key `2-SWITCH MULTILEVEL-user-bogus-1-0`. -/
theorem lookup_unknown_genre_not_rejected :
    sampleTables.valueGenreNum "bogus".toList = 255 ∧
      sampleTables.valueGenreStr 255 ≠ "bogus".toList ∧
      MyNode.lookup sampleTables registryWithBogusGenre
          "2-SWITCH MULTILEVEL-bogus-byte-1-0".toList = some (some ⟨bogusGenreID⟩) ∧
      MyNode.lookup sampleTables
          { registryWithValue with
            nodes := (List.replicate 255 none).set 2
              (some ⟨0, 0, [⟨⟨0, 2, 1, 0x26, 1, 0, 255⟩⟩], []⟩) }
          "2-SWITCH MULTILEVEL-user-bogus-1-0".toList
        = some (some ⟨⟨0, 2, 1, 0x26, 1, 0, 255⟩⟩) := by
  refine ⟨by decide, by decide, by decide, by decide⟩

/-! ## Scenarios of the dispatcher -/

/-- C11: for every address `a` of `[1, MAX_NODES]` and every value identity
`K`, the dispatch of node-added(a), value-added(a, K), value-changed(a, K),
value-removed(a, K), node-removed(a), in this order and whatever the driver
answers and the clock are at each step, faults and returns no state.  When
`a` is no index of the node table the store of node-added falls outside it;
otherwise the first three dispatches return a state in which node `a` holds
the one value `K`, and value-removed faults on it: `MyNode::removeValue`
finds the record and reads it through the iterator it has just erased. -/
theorem node_value_scenario_faults (MAX_NODES : Nat) (mgr : Nat → Manager) (now : Nat → Nat)
    (st : State) (a : Nat) (K : ValueID) (h1 : 1 ≤ a) (h2 : a ≤ MAX_NODES) :
    dispatchAll MAX_NODES st
        [(mgr 0, now 0, nodeAdded a), (mgr 1, now 1, valueAdded a K),
         (mgr 2, now 2, valueChanged a K), (mgr 3, now 3, valueRemoved a K),
         (mgr 4, now 4, nodeRemoved a)] = none ∧
      (¬ a < st.nodes.length →
        OnNotification MAX_NODES (mgr 0) (now 0) st (nodeAdded a) = none) ∧
      (a < st.nodes.length →
        ∃ s nd, dispatchAll MAX_NODES st
            [(mgr 0, now 0, nodeAdded a), (mgr 1, now 1, valueAdded a K),
             (mgr 2, now 2, valueChanged a K)] = some s ∧
          s.nodes[a]? = some (some nd) ∧ nd.values = [⟨K⟩] ∧
          OnNotification MAX_NODES (mgr 3) (now 3) s (valueRemoved a K) = none) := by
  have hr : ¬ ((a : Int) < 1 ∨ (a : Int) > (MAX_NODES : Int)) := by omega
  have h0 : a ≠ 0 := by omega
  have hm : ¬ MAX_NODES < a := by omega
  by_cases hlt : a < st.nodes.length
  · refine ⟨?_, fun h => absurd hlt h, fun _ => ?_⟩
    · simp [dispatchAll, List.foldlM_cons, List.foldlM_nil, OnNotification, nodeAdded,
        valueAdded, valueChanged, valueRemoved, nodeRemoved, MyNode.create, onNode,
        MyNode.removeValue, MyNode.addValue, MyNode.saveValue, MyNode.setTime, MyNode.newGroup,
        h0, hm, hlt]
    · refine ⟨{ st with
          nodes := st.nodes.set a (some ((((MyNode.newGroup (mgr 0) st.homeId ⟨0, 0, [], []⟩
            (toUint8 (a : Int))).setTime (now 0)).addValue (now 1) K).saveValue (now 2) K))
          nodecount := wrapInt32 (st.nodecount + 1)
          nodesChanged := true },
        (((MyNode.newGroup (mgr 0) st.homeId ⟨0, 0, [], []⟩
            (toUint8 (a : Int))).setTime (now 0)).addValue (now 1) K).saveValue (now 2) K,
        ?_, ?_, ?_, ?_⟩
      · simp [dispatchAll, List.foldlM_cons, List.foldlM_nil, OnNotification, nodeAdded,
          valueAdded, valueChanged, MyNode.create, onNode, h0, hm, hlt, List.set_set]
      · simp [hlt]
      · simp [MyNode.addValue, MyNode.saveValue, MyNode.setTime, MyNode.newGroup]
      · simp [OnNotification, valueRemoved, onNode, MyNode.removeValue, MyNode.addValue,
          MyNode.saveValue, MyNode.setTime, MyNode.newGroup, hlt]
  · refine ⟨?_, fun _ => ?_, fun h => absurd h hlt⟩
    · simp [dispatchAll, List.foldlM_cons, OnNotification, nodeAdded, MyNode.create, h0, hm,
        hlt]
    · simp [OnNotification, nodeAdded, MyNode.create, h0, hm, hlt]

set_option maxRecDepth 8000 in
/-- C11 at address 5 of the empty registry of 255 slots, with the value
`2-SWITCH MULTILEVEL-user-byte-1-0` re-addressed to node 5: the first three
dispatches leave node 5 with that one value, value-removed faults, and the
scenario returns no state. -/
theorem node_value_scenario_faults_witness :
    dispatchAll 255 (emptyRegistry 255)
        [(driverReporting [], 0, nodeAdded 5),
         (driverReporting [], 1, valueAdded 5 { sampleValueID with nodeId := 5 }),
         (driverReporting [], 2, valueChanged 5 { sampleValueID with nodeId := 5 }),
         (driverReporting [], 3, valueRemoved 5 { sampleValueID with nodeId := 5 }),
         (driverReporting [], 4, nodeRemoved 5)] = none ∧
      ∃ s nd, dispatchAll 255 (emptyRegistry 255)
          [(driverReporting [], 0, nodeAdded 5),
           (driverReporting [], 1, valueAdded 5 { sampleValueID with nodeId := 5 }),
           (driverReporting [], 2, valueChanged 5 { sampleValueID with nodeId := 5 })]
            = some s ∧
        s.nodes[5]? = some (some nd) ∧ nd.values = [⟨{ sampleValueID with nodeId := 5 }⟩] ∧
        OnNotification 255 (driverReporting []) 3 s
          (valueRemoved 5 { sampleValueID with nodeId := 5 }) = none :=
  have h := node_value_scenario_faults 255 (fun _ => driverReporting []) (fun k => k)
    (emptyRegistry 255) 5 { sampleValueID with nodeId := 5 } (by decide) (by decide)
  ⟨h.1, h.2.2 (by decide)⟩

theorem onNode_some (st st' : State) (i : Nat) (f : MyNode → Option MyNode)
    (h : onNode st i f = some st') :
    ∃ nd nd', st.nodes[i]? = some (some nd) ∧ f nd = some nd' ∧
      st' = { st with nodes := st.nodes.set i (some nd') } := by
  unfold onNode at h
  cases hs : st.nodes[i]? with
  | none => simp [hs] at h
  | some slot =>
    cases slot with
    | none => simp [hs] at h
    | some nd =>
      cases hf : f nd with
      | none => simp [hs, hf] at h
      | some nd' =>
        simp only [hs, hf, Option.map_some', Option.some.injEq] at h
        exact ⟨nd, nd', rfl, hf, h.symm⟩

/-- A member call through a slot that holds no record, or through no slot
of the table, faults. -/
theorem onNode_without_node (st : State) (i : Nat) (f : MyNode → Option MyNode)
    (h : ∀ nd, st.nodes[i]? ≠ some (some nd)) : onNode st i f = none := by
  unfold onNode
  cases hs : st.nodes[i]? with
  | none => rfl
  | some slot =>
    cases slot with
    | none => rfl
    | some nd => exact absurd hs (h nd)

/-- The value-added branch of `OnNotification` calls `addValue` through
`nodes[GetNodeId()]` without a test of the slot: for an address with no
record the dispatch faults, in every registry state. -/
theorem value_added_without_node (MAX_NODES : Nat) (mgr : Manager) (now : Nat) (st : State)
    (n : Notification) (ht : n.type = NotificationType.ValueAdded)
    (h : ∀ nd, st.nodes[n.nodeId]? ≠ some (some nd)) :
    OnNotification MAX_NODES mgr now st n = none := by
  simp only [OnNotification, ht]
  exact onNode_without_node _ _ _ h

set_option maxRecDepth 8000 in
/-- C13, evaluated on the empty registry of 255 slots: slot 5 is `NULL`, the
value-added notification for node 5 makes the dispatcher call
`nodes[5]->addValue(id)`, and the dispatch faults instead of dropping the
notification. -/
theorem value_added_on_empty_slot_faults :
    (emptyRegistry 255).nodes[5]? = some none ∧
      OnNotification 255 (driverReporting []) 0 (emptyRegistry 255)
        (valueAdded 5 { sampleValueID with nodeId := 5 }) = none := by
  refine ⟨by decide, by decide⟩

/-! ## Value identities -/

theorem distinctIn_set (nodes : List (Option MyNode)) (i : Nat) (x : Option MyNode)
    (h : distinctIn nodes) (hx : ∀ nd, x = some nd → (nd.values.map MyValue.id).Nodup) :
    distinctIn (nodes.set i x) := by
  intro nd hnd
  rcases List.mem_or_eq_of_mem_set hnd with hm | he
  · exact h nd hm
  · exact hx nd he.symm

theorem distinctIn_create (MAX_NODES : Nat) (mgr : Manager) (now : Nat) (st st' : State)
    (ind : Int) (h : distinctIn st.nodes) (hc : MyNode.create MAX_NODES mgr now st ind = some st') :
    distinctIn st'.nodes := by
  unfold MyNode.create at hc
  split_ifs at hc with h1 h2
  · simp only [Option.some.injEq] at hc
    rw [← hc]
    exact h
  · simp only [Option.some.injEq] at hc
    rw [← hc]
    exact distinctIn_set _ _ _ h (fun nd hnd => by
      simp only [Option.some.injEq] at hnd
      rw [← hnd]
      simp [MyNode.setTime, MyNode.newGroup])

theorem distinctIn_remove (MAX_NODES : Nat) (st st' : State) (ind : Int)
    (h : distinctIn st.nodes) (hc : MyNode.remove MAX_NODES st ind = some st') :
    distinctIn st'.nodes := by
  unfold MyNode.remove at hc
  split_ifs at hc with h1
  · simp only [Option.some.injEq] at hc
    rw [← hc]
    exact h
  · cases hs : st.nodes[ind.toNat]? with
    | none => simp [hs] at hc
    | some slot =>
      cases slot with
      | none =>
        simp only [hs, Option.some.injEq] at hc
        rw [← hc]
        exact h
      | some nd =>
        simp only [hs, Option.some.injEq] at hc
        rw [← hc]
        exact distinctIn_set _ _ _ h (fun _ hnd => by simp at hnd)

theorem distinctIn_removeRounds (MAX_NODES : Nat) (l : List Nat) :
    ∀ (st st' : State), distinctIn st.nodes →
      l.foldlM (fun s (i : Nat) => MyNode.remove MAX_NODES s (i : Int)) st = some st' →
      distinctIn st'.nodes := by
  induction l with
  | nil =>
    intro st st' h hc
    simp only [List.foldlM_nil, Option.pure_def, Option.some.injEq] at hc
    rw [← hc]
    exact h
  | cons i l ih =>
    intro st st' h hc
    simp only [List.foldlM_cons, Option.bind_eq_bind] at hc
    cases hr : MyNode.remove MAX_NODES st (i : Int) with
    | none => simp [hr] at hc
    | some s1 =>
      rw [hr, Option.some_bind] at hc
      exact ih s1 st' (distinctIn_remove MAX_NODES st s1 _ h hr) hc

theorem distinctIn_onNode (st st' : State) (i : Nat) (f : MyNode → Option MyNode)
    (h : distinctIn st.nodes) (hc : onNode st i f = some st')
    (hf : ∀ nd nd', st.nodes[i]? = some (some nd) → f nd = some nd' →
      (nd.values.map MyValue.id).Nodup → (nd'.values.map MyValue.id).Nodup) :
    distinctIn st'.nodes := by
  obtain ⟨nd, nd', hs, hfn, rfl⟩ := onNode_some st st' i f hc
  exact distinctIn_set _ _ _ h (fun nd2 hnd2 => by
    simp only [Option.some.injEq] at hnd2
    rw [← hnd2]
    exact hf nd nd' hs hfn (h nd (List.getElem?_mem hs)))

/-- One dispatch keeps the value identities of every node distinct, unless
it announces as added a value its node already holds. -/
theorem valuesDistinct_step (MAX_NODES : Nat) (mgr : Manager) (now : Nat) (st st' : State)
    (n : Notification) (hd : valuesDistinct st) (hf : reannounces st n = false)
    (h : OnNotification MAX_NODES mgr now st n = some st') : valuesDistinct st' := by
  have hd0 : distinctIn ({ st with nodesChanged := true } : State).nodes := hd
  unfold OnNotification at h
  cases ht : n.type <;> simp only [ht] at h
  case ValueAdded =>
    refine distinctIn_onNode _ _ _ _ hd0 h (fun nd nd' hs hfn hn => ?_)
    simp only [Option.some.injEq] at hfn
    subst hfn
    have hs' : st.nodes[n.nodeId]? = some (some nd) := hs
    have hnot : (⟨n.valueId⟩ : MyValue) ∉ nd.values := by
      simpa [reannounces, ht, hs'] using hf
    simp only [MyNode.addValue, List.map_append, List.map_cons, List.map_nil]
    refine List.Nodup.append hn (List.nodup_singleton _) ?_
    intro x hx1 hx2
    simp only [List.mem_singleton] at hx2
    subst hx2
    obtain ⟨v, hv, hvid⟩ := List.mem_map.mp hx1
    apply hnot
    cases v
    simp only at hvid
    rw [← hvid]
    exact hv
  case ValueRemoved =>
    refine distinctIn_onNode _ _ _ _ hd0 h (fun nd nd' _ hfn hn => ?_)
    unfold MyNode.removeValue at hfn
    cases hfind : nd.values.find? (fun v => v.id == n.valueId) with
    | none =>
      simp only [hfind, Option.some.injEq] at hfn
      rw [← hfn]
      exact hn
    | some v => simp [hfind] at hfn
  case ValueChanged =>
    refine distinctIn_onNode _ _ _ _ hd0 h (fun nd nd' _ hfn hn => ?_)
    simp only [Option.some.injEq] at hfn
    subst hfn
    exact hn
  case NodeEvent =>
    refine distinctIn_onNode _ _ _ _ hd0 h (fun nd nd' _ hfn hn => ?_)
    simp only [Option.some.injEq] at hfn
    subst hfn
    exact hn
  case Group =>
    split_ifs at h
    · refine distinctIn_onNode _ _ _ _ hd0 h (fun nd nd' _ hfn hn => ?_)
      simp only [Option.some.injEq] at hfn
      subst hfn
      simp only [MyNode.addGroup]
      split_ifs <;> simpa [MyNode.newGroup] using hn
    · simp only [Option.some.injEq] at h
      rw [← h]
      exact hd
  case NodeAdded => exact distinctIn_create _ _ _ _ _ _ hd0 h
  case NodeRemoved =>
    cases hr : MyNode.remove MAX_NODES { st with nodesChanged := true } (n.nodeId : Int) with
    | none => simp [hr] at h
    | some s1 =>
      simp only [hr, Option.map_some', Option.some.injEq] at h
      rw [← h]
      exact distinctIn_remove MAX_NODES _ s1 _ hd0 hr
  case DriverReset =>
    exact distinctIn_removeRounds MAX_NODES (List.range' 1 MAX_NODES) _ st' (by exact hd) h
  all_goals
    simp only [Option.some.injEq] at h
    rw [← h]
    exact hd

theorem valuesDistinct_run (MAX_NODES : Nat) (evs : List (Manager × Nat × Notification)) :
    ∀ (st st' : State), valuesDistinct st → freshRun MAX_NODES st evs = true →
      dispatchAll MAX_NODES st evs = some st' → valuesDistinct st' := by
  induction evs with
  | nil =>
    intro st st' hd _ h
    simp only [dispatchAll, List.foldlM_nil, Option.pure_def, Option.some.injEq] at h
    rw [← h]
    exact hd
  | cons e es ih =>
    intro st st' hd hf h
    simp only [dispatchAll, List.foldlM_cons, Option.bind_eq_bind] at h
    simp only [freshRun, Bool.and_eq_true, Bool.not_eq_true'] at hf
    cases hs : OnNotification MAX_NODES e.1 e.2.1 st e.2.2 with
    | none => simp [hs] at h
    | some s1 =>
      rw [hs, Option.some_bind] at h
      have hf2 := hf.2
      rw [hs] at hf2
      exact ih s1 st' (valuesDistinct_step _ _ _ _ _ _ hd hf.1 hs) hf2 h

/-- C12, as amended: in every state reached from the empty registry by a
run of notifications in which no value-added notification announces a value
its node already holds, no node holds two value records with the same
identity. -/
theorem values_distinct_of_fresh_run (MAX_NODES : Nat)
    (evs : List (Manager × Nat × Notification)) (st' : State)
    (hf : freshRun MAX_NODES (emptyRegistry MAX_NODES) evs = true)
    (h : dispatchAll MAX_NODES (emptyRegistry MAX_NODES) evs = some st') :
    valuesDistinct st' := by
  refine valuesDistinct_run MAX_NODES evs _ st' ?_ hf h
  intro nd hnd
  simp [emptyRegistry] at hnd

set_option maxRecDepth 8000 in
/-- C12 on a run that announces a value of node 5, removes a second value,
which the node does not hold, and announces that second value: node 5 then
holds each of the two values once. -/
theorem values_distinct_of_fresh_run_witness :
    freshRun 255 (emptyRegistry 255) valueApartRun = true ∧
      dispatchAll 255 (emptyRegistry 255) valueApartRun
        = some { emptyRegistry 255 with
            nodes := (List.replicate 255 none).set 5
              (some ⟨0, 3, [⟨valueOfNode5⟩, ⟨secondValueOfNode5⟩], [⟨1, 5, "", []⟩]⟩)
            nodecount := 1
            nodesChanged := true } ∧
      valuesDistinct { emptyRegistry 255 with
        nodes := (List.replicate 255 none).set 5
          (some ⟨0, 3, [⟨valueOfNode5⟩, ⟨secondValueOfNode5⟩], [⟨1, 5, "", []⟩]⟩)
        nodecount := 1
        nodesChanged := true } :=
  ⟨by decide, by decide,
   values_distinct_of_fresh_run 255 valueApartRun _ (by decide) (by decide)⟩

set_option maxRecDepth 8000 in
/-- C12 as stated fails: from the empty registry, node-added(5) followed by
two value-added notifications for the same value of node 5 returns a state
in which node 5 holds two value records with that identity;
`MyNode::addValue` pushes the record without a search of the list. -/
theorem value_added_twice_duplicates :
    (dispatchAll 255 (emptyRegistry 255) valueTwiceRun).bind (fun s => s.nodes[5]?)
        = some (some ⟨0, 2, [⟨valueOfNode5⟩, ⟨valueOfNode5⟩], [⟨1, 5, "", []⟩]⟩) ∧
      ∀ st, dispatchAll 255 (emptyRegistry 255) valueTwiceRun = some st →
        ¬ valuesDistinct st := by
  have h5 : (dispatchAll 255 (emptyRegistry 255) valueTwiceRun).bind (fun s => s.nodes[5]?)
      = some (some ⟨0, 2, [⟨valueOfNode5⟩, ⟨valueOfNode5⟩], [⟨1, 5, "", []⟩]⟩) := by decide
  refine ⟨h5, fun st hst hd => ?_⟩
  rw [hst, Option.some_bind] at h5
  have hn := hd _ (List.getElem?_mem h5)
  revert hn
  decide

/-! ## Group reconciliation: missing group, malformed members, repetitions -/

/-- C14: when the node has no group record of index `grp`,
`MyNode::updateGroup(node, grp, text)` returns without sending a command, for
every text: the trace is empty, so the driver-side members of every group
are as before (the function writes to no group record in any of its
branches). -/
theorem updateGroup_group_not_found (homeId : Nat) (self : MyNode) (node grp : Nat)
    (glist : Option (List Char)) (h : ∀ g ∈ self.groups, g.groupid ≠ grp) :
    self.updateGroup homeId node grp glist = some [] ∧
      ∀ cmds, self.updateGroup homeId node grp glist = some cmds →
        ∀ (h' n' g' : Nat) (S : Finset Nat), driverAfter h' n' g' S cmds = S := by
  have hnone : self.getGroup grp = none := by
    simp only [MyNode.getGroup, List.find?_eq_none, beq_iff_eq]
    exact h
  have hnil : self.updateGroup homeId node grp glist = some [] := by
    simp only [MyNode.updateGroup, hnone]
  refine ⟨hnil, fun cmds hc h' n' g' S => ?_⟩
  rw [hnil, Option.some.injEq] at hc
  rw [← hc]
  rfl

/-- C14 at group 2 of a node whose only group is group 1. -/
theorem updateGroup_group_not_found_witness :
    (∀ g ∈ nodeWithGroup45.groups, g.groupid ≠ 2) ∧
      MyNode.updateGroup 0 nodeWithGroup45 7 2 (some "3,4,9".toList) = some [] ∧
      ∀ cmds, MyNode.updateGroup 0 nodeWithGroup45 7 2 (some "3,4,9".toList) = some cmds →
        ∀ (h' n' g' : Nat) (S : Finset Nat), driverAfter h' n' g' S cmds = S :=
  ⟨by decide,
   updateGroup_group_not_found 0 nodeWithGroup45 7 2 (some "3,4,9".toList) (by decide)⟩

/-- C16, evaluated at texts of one token on a group mirroring 4 and 5: the
text `abc`, the text `0` and the empty token of the text `,` are read by
`strtol` as 0 and `MyNode::updateGroup` sends an add-association command for
member 0, an address outside `[1, MAX_NODES]`; the token `300` is stored in
a byte and sent as member 44.  (The text `3,,4` has three tokens, and the
call faults at its second store into the one-byte scratch buffer.) -/
theorem updateGroup_adds_member_zero :
    MyNode.updateGroup 0 nodeWithGroup45 7 1 (some ",".toList)
        = some [Cmd.AddAssociation 0 7 1 0, Cmd.RemoveAssociation 0 7 1 4,
           Cmd.RemoveAssociation 0 7 1 5] ∧
      MyNode.updateGroup 0 nodeWithGroup45 7 1 (some "abc".toList)
        = some [Cmd.AddAssociation 0 7 1 0, Cmd.RemoveAssociation 0 7 1 4,
           Cmd.RemoveAssociation 0 7 1 5] ∧
      MyNode.updateGroup 0 nodeWithGroup45 7 1 (some "0".toList)
        = some [Cmd.AddAssociation 0 7 1 0, Cmd.RemoveAssociation 0 7 1 4,
           Cmd.RemoveAssociation 0 7 1 5] ∧
      MyNode.updateGroup 0 nodeWithGroup45 7 1 (some "300".toList)
        = some [Cmd.AddAssociation 0 7 1 44, Cmd.RemoveAssociation 0 7 1 4,
           Cmd.RemoveAssociation 0 7 1 5] ∧
      ¬ (1 ≤ Cmd.target (Cmd.AddAssociation 0 7 1 0)) ∧
      MyNode.updateGroup 0 nodeWithGroup45 7 1 (some "3,,4".toList) = none := by
  refine ⟨by decide, by decide, by decide, by decide, by decide, by decide⟩

theorem updatePollLoop_resolved {D : Type} (T : Tables) (st : State) (pd : PollDriver D)
    (ids : List (List Char)) :
    ∀ (vs : List MyValue) (polls : List Bool) (fuel : Nat) (d : D) (out : List PollCmd),
      ids.map (MyNode.lookup T st) = vs.map (fun v => some (some v)) →
      ids.length = polls.length → ids.length < fuel →
      updatePollLoop T st pd fuel ids polls d out
        = Outcome.returns (out ++ (pollSteps pd (vs.zip polls) d).1,
            (pollSteps pd (vs.zip polls) d).2) := by
  induction ids with
  | nil =>
    intro vs polls fuel d out hres hlen hfuel
    cases fuel with
    | zero => simp at hfuel
    | succ k =>
      cases vs with
      | nil => simp [updatePollLoop, pollSteps]
      | cons v vs => simp at hres
  | cons it ids ih =>
    intro vs polls fuel d out hres hlen hfuel
    cases fuel with
    | zero => simp at hfuel
    | succ k =>
      cases polls with
      | nil => simp at hlen
      | cons pit polls =>
        cases vs with
        | nil => simp at hres
        | cons v vs =>
          simp only [List.map_cons, List.cons.injEq] at hres
          simp only [List.length_cons, add_left_inj] at hlen
          simp only [List.length_cons, add_lt_add_iff_right] at hfuel
          have hrec := fun d' out' => ih vs polls k d' out' hres.2 hlen hfuel
          have hz : (v :: vs).zip (pit :: polls) = (v, pit) :: vs.zip polls := rfl
          rw [hz]
          simp only [updatePollLoop, hres.1, pollSteps, pollStep]
          cases pit <;> cases hp : pd.isPolled d v.id <;>
            simp only [hrec, hp, List.append_assoc, Bool.false_eq_true, if_false, if_true,
              Bool.not_true, Bool.not_false, List.nil_append, List.singleton_append,
              List.cons_append]

/-- C15, as amended: for equal-length key and flag lists in which every key
resolves, and with more fuel than there are keys, `MyNode::updatePoll`
returns, and it has sent for each position exactly: an enable-poll command
if the flag begins with the character 1 and the driver reports the value as
not polled, a disable-poll command if the flag does not begin with 1 and the
driver reports the value as polled, and no command otherwise (each report
taken on the driver state the earlier positions left). -/
theorem updatePoll_commands {D : Type} (T : Tables) (st : State) (pd : PollDriver D)
    (fuel : Nat) (ilist plist : Option (List Char)) (d : D) (vs : List MyValue)
    (hlen : (splitItems ilist).length = (splitItems plist).length)
    (hres : (splitItems ilist).map (MyNode.lookup T st) = vs.map (fun v => some (some v)))
    (hfuel : (splitItems ilist).length < fuel) :
    MyNode.updatePoll T st pd fuel ilist plist d
      = Outcome.returns
          (pollSteps pd (vs.zip ((splitItems plist).map (fun f => f.head? == some '1'))) d) := by
  have hlen2 : (splitItems ilist).length
      = ((splitItems plist).map (fun f => f.head? == some '1')).length := by
    rw [List.length_map]
    exact hlen
  simp only [MyNode.updatePoll, hlen2, ne_eq, not_true_eq_false, if_false]
  rw [updatePollLoop_resolved T st pd _ vs _ fuel d [] hres hlen2 hfuel]
  simp

set_option maxRecDepth 8000 in
/-- C15 at one key given twice with the flags `1,0`, on a driver that polls
nothing: the first position enables polling of the value, the second
disables it again. -/
theorem updatePoll_commands_witness :
    MyNode.updatePoll sampleTables registryWithValue listPollDriver 3
        (some "2-SWITCH MULTILEVEL-user-byte-1-0,2-SWITCH MULTILEVEL-user-byte-1-0".toList)
        (some "1,0".toList) []
      = Outcome.returns
          (pollSteps listPollDriver
            ([⟨sampleValueID⟩, ⟨sampleValueID⟩].zip
              ((splitItems (some "1,0".toList)).map (fun f => f.head? == some '1'))) []) ∧
      pollSteps listPollDriver
          ([⟨sampleValueID⟩, ⟨sampleValueID⟩].zip
            ((splitItems (some "1,0".toList)).map (fun f => f.head? == some '1'))) []
        = ([PollCmd.EnablePoll sampleValueID, PollCmd.DisablePoll sampleValueID], []) :=
  ⟨updatePoll_commands sampleTables registryWithValue listPollDriver 3
     (some "2-SWITCH MULTILEVEL-user-byte-1-0,2-SWITCH MULTILEVEL-user-byte-1-0".toList)
     (some "1,0".toList) [] [⟨sampleValueID⟩, ⟨sampleValueID⟩] (by decide) (by decide)
     (by decide),
   by decide⟩

set_option maxRecDepth 8000 in
/-- C15 as stated fails for a flag that begins with 1 without being the text
`1`: `MyNode::updatePoll` tests the first character of the flag only
(`*np == '1'`), so for the flag `10` and a value the driver does not poll it
sends an enable-poll command. -/
theorem updatePoll_flag_first_character :
    splitItems (some "10".toList) = ["10".toList] ∧ "10".toList ≠ "1".toList ∧
      listPollDriver.isPolled [] sampleValueID = false ∧
      MyNode.lookup sampleTables registryWithValue "2-SWITCH MULTILEVEL-user-byte-1-0".toList
        = some (some ⟨sampleValueID⟩) ∧
      MyNode.updatePoll sampleTables registryWithValue listPollDriver 2
          (some "2-SWITCH MULTILEVEL-user-byte-1-0".toList) (some "10".toList) []
        = Outcome.returns ([PollCmd.EnablePoll sampleValueID], [sampleValueID]) := by
  refine ⟨by decide, by decide, by decide, by decide, by decide⟩

/-! ## The live node count -/

theorem countP_set_same {α : Type} (p : α → Bool) (l : List α) :
    ∀ (i : Nat) (x y : α), l[i]? = some x → p x = p y → (l.set i y).countP p = l.countP p := by
  induction l with
  | nil => intro i x y h _; simp at h
  | cons a l ih =>
    intro i x y h hp
    cases i with
    | zero =>
      simp only [List.getElem?_cons_zero, Option.some.injEq] at h
      subst h
      simp only [List.set_cons_zero, List.countP_cons, hp]
    | succ j =>
      simp only [List.getElem?_cons_succ] at h
      simp only [List.set_cons_succ, List.countP_cons, ih j x y h hp]

/-- The constructor on an occupied slot: the record is stored over the live
one and `nodecount` is incremented, so the count grows while the number of
occupied slots stays. -/
theorem create_over_live_record (MAX_NODES : Nat) (mgr : Manager) (now : Nat) (st : State)
    (a : Nat) (nd : MyNode) (h1 : 1 ≤ a) (h2 : a ≤ MAX_NODES)
    (hslot : st.nodes[a]? = some (some nd)) :
    ∃ st', MyNode.create MAX_NODES mgr now st (a : Int) = some st' ∧
      st'.nodecount = wrapInt32 (st.nodecount + 1) ∧
      occupiedSlots st' = occupiedSlots st := by
  have hr : ¬ ((a : Int) < 1 ∨ (a : Int) > (MAX_NODES : Int)) := by omega
  have hlt : a < st.nodes.length := by
    by_contra hge
    rw [List.getElem?_eq_none_iff.mpr (by omega)] at hslot
    exact absurd hslot (by simp)
  simp only [MyNode.create, if_neg hr, Int.toNat_ofNat, if_pos hlt]
  refine ⟨_, rfl, rfl, ?_⟩
  exact countP_set_same Option.isSome st.nodes a (some nd) _ hslot rfl

set_option maxRecDepth 8000 in
/-- C18, evaluated on the run node-added(5), node-added(5) from the empty
registry of 255 slots: the second constructor call stores its record over
the live one and increments `nodecount` again, so the count is 2 while one
slot is occupied. -/
theorem node_added_twice_counts_twice :
    (dispatchAll 255 (emptyRegistry 255)
        [(driverReporting [], 0, nodeAdded 5), (driverReporting [], 1, nodeAdded 5)]).map
      (fun s => (s.nodecount, occupiedSlots s)) = some (2, 1) := by
  decide

/-! ## Value removal -/

/-- C19: on a registry whose slot `a` holds the node `nd`, the dispatch of
value-removed(a, K) runs `MyNode::removeValue(K)` on `nd`.  When some record
of `nd` has the identity `K`, the call erases the first such record and then
reads it through the erased iterator (`values.erase(it); delete *it;`): the
call and the dispatch fault and return no state, so no value list with that
record erased results.  When no record of `nd` has the identity `K`, the
dispatch returns, and the node with its values and groups, the other slots
and `MyNode::nodecount` are as before. -/
theorem removeValue_reads_erased_record (MAX_NODES : Nat) (mgr : Manager) (now : Nat)
    (st : State) (a : Nat) (nd : MyNode) (K : ValueID)
    (hslot : st.nodes[a]? = some (some nd)) :
    ((∃ v ∈ nd.values, v.id = K) →
        nd.removeValue K = none ∧
        OnNotification MAX_NODES mgr now st (valueRemoved a K) = none) ∧
      ((∀ v ∈ nd.values, v.id ≠ K) →
        nd.removeValue K = some nd ∧
        ∃ st', OnNotification MAX_NODES mgr now st (valueRemoved a K) = some st' ∧
          (∀ i : Nat, st'.nodes[i]? = st.nodes[i]?) ∧ st'.nodecount = st.nodecount) := by
  constructor
  · rintro ⟨v, hv, hvK⟩
    have hfind : ∃ w, nd.values.find? (fun u => u.id == K) = some w := by
      cases hf : nd.values.find? (fun u => u.id == K) with
      | none =>
        rw [List.find?_eq_none] at hf
        exact absurd (by simpa using hvK) (hf v hv)
      | some w => exact ⟨w, rfl⟩
    obtain ⟨w, hw⟩ := hfind
    have hrm : nd.removeValue K = none := by
      simp only [MyNode.removeValue, hw]
    refine ⟨hrm, ?_⟩
    simp only [OnNotification, valueRemoved, onNode, hslot, hrm, Option.map_none']
  · intro hno
    have hfind : nd.values.find? (fun u => u.id == K) = none := by
      rw [List.find?_eq_none]
      intro u hu
      simpa using hno u hu
    have hrm : nd.removeValue K = some nd := by
      simp only [MyNode.removeValue, hfind]
    refine ⟨hrm, { st with
      nodesChanged := true
      nodes := st.nodes.set a (some nd) }, ?_, ?_, rfl⟩
    · simp only [OnNotification, valueRemoved, onNode, hslot, hrm, Option.map_some']
    · intro i
      by_cases hi : a = i
      · subst hi
        have hlt : a < st.nodes.length := by
          by_contra hge
          rw [List.getElem?_eq_none_iff.mpr (by omega)] at hslot
          exact absurd hslot (by simp)
        simp [List.getElem?_set, hlt, hslot]
      · simp [List.getElem?_set, hi]

set_option maxRecDepth 8000 in
/-- C19 at the value of node 2 of `registryWithValue`: the dispatch of
value-removed for the one value the node holds faults. -/
theorem removeValue_reads_erased_record_witness :
    registryWithValue.nodes[2]? = some (some ⟨0, 0, [⟨sampleValueID⟩], []⟩) ∧
      MyNode.removeValue ⟨0, 0, [⟨sampleValueID⟩], []⟩ sampleValueID = none ∧
      OnNotification 255 (driverReporting []) 0 registryWithValue
        (valueRemoved 2 sampleValueID) = none :=
  ⟨by decide,
   (removeValue_reads_erased_record 255 (driverReporting []) 0 registryWithValue 2
      ⟨0, 0, [⟨sampleValueID⟩], []⟩ sampleValueID (by decide)).1
        ⟨⟨sampleValueID⟩, List.mem_singleton.mpr rfl, rfl⟩⟩

/-! ## Group-changed notifications -/

theorem pushMembers_no_match (g : Nat) (ms : List Nat) (gs : List MyGroup)
    (h : ∀ p ∈ gs, p.groupid ≠ g) : pushMembers g ms gs = gs := by
  induction gs with
  | nil => rfl
  | cons p ps ih =>
    have hp : p.groupid ≠ g := h p (List.mem_cons_self _ _)
    simp only [pushMembers, beq_iff_eq, hp, if_false,
      ih (fun q hq => h q (List.mem_cons_of_mem _ hq))]

/-- The accepted addresses that index the table: on a table of `MAX_NODES`
slots, the constructor and `MyNode::remove` at an address of
`[1, MAX_NODES]` stay within the table exactly when the address is below
`MAX_NODES`. -/
theorem accepted_address_in_table_iff (MAX_NODES : Nat) (mgr : Manager) (now : Nat)
    (st : State) (a : Nat) (hlen : st.nodes.length = MAX_NODES) (h1 : 1 ≤ a)
    (h2 : a ≤ MAX_NODES) :
    (MyNode.create MAX_NODES mgr now st (a : Int) ≠ none ∧
        MyNode.remove MAX_NODES st (a : Int) ≠ none) ↔ a < MAX_NODES := by
  constructor
  · intro h
    by_contra hge
    have ha : a = MAX_NODES := by omega
    subst ha
    exact h.1 (create_remove_at_MAX_NODES a mgr now st h1 hlen).1
  · intro hlt
    obtain ⟨s1, hc, _⟩ := create_in_table MAX_NODES mgr now st a h1 h2 (by omega)
    obtain ⟨s2, hr, _⟩ := remove_in_table MAX_NODES st a h1 h2 (by omega)
    rw [hc, hr]
    exact ⟨by simp, by simp⟩

set_option maxRecDepth 8000 in
/-- C21, evaluated at the accepted address `MAX_NODES` of a table of 255
slots: the address 255 passes the range check `ind < 1 || ind > MAX_NODES`,
the table has the indices 0 to 254, so `nodes[255]` is out of bounds; the
constructor, `MyNode::remove` and the last round of the driver-reset loop
over `1 .. MAX_NODES` all reach the out-of-bounds branch. -/
theorem accepted_address_MAX_NODES_outside_table :
    ¬ ((255 : Int) < 1 ∨ (255 : Int) > ((255 : Nat) : Int)) ∧
      (emptyRegistry 255).nodes.length = 255 ∧
      (emptyRegistry 255).nodes[255]? = none ∧
      MyNode.create 255 (driverReporting []) 0 (emptyRegistry 255) 255 = none ∧
      MyNode.remove 255 (emptyRegistry 255) 255 = none ∧
      removeAll 255 (emptyRegistry 255) = none := by
  have hlen : (emptyRegistry 255).nodes.length = 255 := List.length_replicate 255 none
  have h := create_remove_at_MAX_NODES 255 (driverReporting []) 0 (emptyRegistry 255)
    (by decide) hlen
  refine ⟨by decide, hlen, List.getElem?_eq_none_iff.mpr (by rw [hlen]), ?_, ?_,
    (removeAll_faults 255 (emptyRegistry 255) (by decide) hlen).2⟩
  · simpa using h.1
  · simpa using h.2

end Ozwcp
